import Mathlib

/-!
# SkillNexus messaging core

A shallow embedding of the conversation store of the SkillNexus server
(`server/controllers/chatController.js`, `server/models/Message.js`) together
with the properties of it that the specification states.

JavaScript strings are modelled as their sequences of UTF-16 code units, so that
`length`, `<` and `trim` mean what they mean in the source.
-/

namespace SkillNexus

/-! ## JavaScript strings -/

/-- A JavaScript string, as its sequence of UTF-16 code units. -/
abbrev JSString := List Nat

/-- The JavaScript `<` on strings: lexicographic order on code units, a proper
prefix being smaller. -/
def jsLt : JSString → JSString → Bool
  | [], [] => false
  | [], _ :: _ => true
  | _ :: _, [] => false
  | x :: xs, y :: ys => if x < y then true else if y < x then false else jsLt xs ys

/-- The default comparator of `Array.prototype.sort` (SortCompare) on strings. -/
def sortCompare (x y : JSString) : Int :=
  if jsLt x y then -1 else if jsLt y x then 1 else 0

/-- Insertion of `x` in front of the first element that does not sort before it. -/
def sortInsert (x : JSString) : List JSString → List JSString
  | [] => [x]
  | y :: ys => if 0 < sortCompare x y then y :: sortInsert x ys else x :: y :: ys

/-- `Array.prototype.sort()` without a comparator on an array of strings: a
stable sort by `sortCompare`. -/
def jsSort : List JSString → List JSString
  | [] => []
  | x :: xs => sortInsert x (jsSort xs)

/-- `Array.prototype.join(sep)` on an array of strings. -/
def join (sep : JSString) : List JSString → JSString
  | [] => []
  | [x] => x
  | x :: y :: ys => x ++ sep ++ join sep (y :: ys)

/-- The code unit of `'-'`. -/
def dash : Nat := 45

/-- `getConversationId` of `chatController.js`:
`[userId1, userId2].sort().join('-')`. -/
def getConversationId (userId1 userId2 : JSString) : JSString :=
  join [dash] (jsSort [userId1, userId2])

/-- JavaScript white space and line terminators, the code units that
`String.prototype.trim` strips. -/
def isWhiteSpace (c : Nat) : Bool :=
  c == 9 || c == 10 || c == 11 || c == 12 || c == 13 || c == 32 || c == 160 ||
  c == 5760 || (8192 ≤ c && c ≤ 8202) || c == 8232 || c == 8233 || c == 8239 ||
  c == 8287 || c == 12288 || c == 65279

/-- `String.prototype.trim`. -/
def trim (s : JSString) : JSString :=
  ((s.dropWhile isWhiteSpace).reverse.dropWhile isWhiteSpace).reverse

/-! ## Documents

The collections the controller works on. Mongoose and MongoDB are outside the
repository; their documented behaviour is modelled here: schema casting,
setters and validators of `Message.js` on `create`, `find` with an equality
filter, `sort` on `createdAt` (stable, ties in storage order) and `populate`
(a reference that resolves to no document becomes `null`). -/

/-- A BSON ObjectId, represented by the hexadecimal string `toString()` gives. -/
structure ObjectId where
  hex : JSString
deriving DecidableEq, Repr

/-- `ObjectId.prototype.toString`. -/
def ObjectId.toString (o : ObjectId) : JSString := o.hex

/-- A hexadecimal digit, either case. -/
def isHexDigit (c : Nat) : Bool :=
  (48 ≤ c && c ≤ 57) || (65 ≤ c && c ≤ 70) || (97 ≤ c && c ≤ 102)

/-- Lower-casing of a hexadecimal digit. -/
def toLowerHex (c : Nat) : Nat := if 65 ≤ c ∧ c ≤ 70 then c + 32 else c

/-- Mongoose's cast of a string to an ObjectId: a string of 24 hexadecimal
digits denotes the ObjectId that prints in lower case; any other string is a
cast error. -/
def castObjectId (s : JSString) : Option ObjectId :=
  if s.length = 24 ∧ s.all isHexDigit = true then some ⟨s.map toLowerHex⟩ else none

/-- The fields of a `User` document that the messaging code reads
(`populate(..., 'name profileImage')` keeps `_id` and these two). -/
structure User where
  _id : ObjectId
  name : JSString
  profileImage : JSString
deriving DecidableEq, Repr

/-- A stored `Message` document (`messageSchema`, with `timestamps: true`). -/
structure Message where
  _id : ObjectId
  sender : ObjectId
  receiver : ObjectId
  content : JSString
  isRead : Bool
  conversationId : JSString
  createdAt : Nat
  updatedAt : Nat
deriving DecidableEq, Repr

/-- The database: the `users` collection and the `messages` collection, the
latter in storage (insertion) order. -/
structure Db where
  users : List User
  messages : List Message
deriving DecidableEq, Repr

/-- A message with `sender` and `receiver` populated; `doc` is the stored
document the populated fields were read from. A reference that resolves to no
user is `none` (JavaScript `null`). -/
structure PopulatedMessage where
  doc : Message
  sender : Option User
  receiver : Option User
deriving DecidableEq, Repr

/-- What a call can throw into the handler's `catch`. A validation error lists
the failing paths with the validator's message. -/
inductive Thrown where
  | validationError (errors : List (String × String))
  | duplicateKey
  | typeError
deriving DecidableEq, Repr

/-- The `message` field of a JSON response: a literal of the controller, or
`error.message` of what was caught. -/
inductive Msg where
  | text (s : String)
  | ofError (e : Thrown)
deriving DecidableEq, Repr

/-- An HTTP response `res.status(status).json({ success, message, count, data })`;
a field the handler does not send is `none`. -/
structure Response (α : Type) where
  status : Nat
  success : Bool
  message : Option Msg
  count : Option Nat
  data : Option α
deriving DecidableEq, Repr

/-- The `catch` branch shared by the handlers: status 500 with `error.message`. -/
def serverError {α : Type} (e : Thrown) : Response α :=
  { status := 500, success := false, message := some (Msg.ofError e), count := none, data := none }

/-- User lookup by `_id`, as `populate` does it. -/
def findUser (db : Db) (id : ObjectId) : Option User :=
  db.users.find? (fun u => decide (u._id = id))

/-- The `.populate('sender', 'name profileImage').populate('receiver', 'name profileImage')`
step on one document. -/
def populate (db : Db) (m : Message) : PopulatedMessage :=
  { doc := m, sender := findUser db m.sender, receiver := findUser db m.receiver }

/-- The validation errors of the `content` path: the `trim` setter has run, then
`required` (a string must be non-empty) and `maxlength: 1000`. -/
def contentErrors (trimmed : JSString) : List (String × String) :=
  if trimmed.length = 0 then [("content", "Message content is required")]
  else if 1000 < trimmed.length then [("content", "Message cannot exceed 1000 characters")]
  else []

/-- `Message.create({ sender, receiver, content, conversationId })`: casts
`receiver` to an ObjectId, trims `content`, validates every path, and on success
inserts the document with `isRead` defaulted to `false` and both timestamps set
to `now`. `newId` is the `_id` the driver generates; the unique index on `_id`
rejects one that is already stored. Nothing is inserted when it throws. -/
def Message.create (db : Db) (newId : ObjectId) (now : Nat) (sender : ObjectId)
    (receiver content conversationId : JSString) : Except Thrown (Message × Db) :=
  let content := trim content
  let receiverErrors : List (String × String) :=
    if (castObjectId receiver).isNone then [("receiver", "Cast to ObjectId failed")] else []
  let conversationErrors : List (String × String) :=
    if conversationId.length = 0 then [("conversationId", "Path conversationId is required.")] else []
  match castObjectId receiver, receiverErrors ++ contentErrors content ++ conversationErrors with
  | some receiver, [] =>
    if db.messages.any (fun m => decide (m._id = newId)) then Except.error Thrown.duplicateKey
    else
      let message : Message :=
        { _id := newId, sender := sender, receiver := receiver, content := content,
          isRead := false, conversationId := conversationId, createdAt := now, updatedAt := now }
      Except.ok (message, { db with messages := db.messages ++ [message] })
  | _, errors => Except.error (Thrown.validationError errors)

/-- `Message.findById(id).populate(...).populate(...)`. -/
def Message.findById (db : Db) (id : ObjectId) : Option PopulatedMessage :=
  (db.messages.find? (fun m => decide (m._id = id))).map (populate db)

/-- The JSON body of `POST /api/messages`: each field is a string or missing. -/
structure SendBody where
  receiverId : Option JSString
  content : Option JSString
deriving DecidableEq, Repr

/-- The 400 response of `sendMessage`. -/
def badRequest : Response PopulatedMessage :=
  { status := 400, success := false, message := some (Msg.text "Receiver and content are required"),
    count := none, data := none }

/-- `sendMessage` of `chatController.js` for the authenticated user `user`
(`req.user._id`); returns the response and the database after the call.
`!receiverId || !content` holds for a missing field and for the empty string. -/
def sendMessage (db : Db) (newId : ObjectId) (now : Nat) (user : ObjectId) (body : SendBody) :
    Response PopulatedMessage × Db :=
  match body.receiverId, body.content with
  | some receiverId, some content =>
    if receiverId = [] ∨ content = [] then (badRequest, db)
    else
      let conversationId := getConversationId user.toString receiverId
      match Message.create db newId now user receiverId content conversationId with
      | Except.ok (message, db1) =>
        let populatedMessage := Message.findById db1 message._id
        ({ status := 201, success := true, message := none, count := none,
           data := populatedMessage }, db1)
      | Except.error e => (serverError e, db)
  | _, _ => (badRequest, db)

/-- `.sort({ createdAt: 1 })`: ascending creation time, stable. -/
def sortCreatedAtAsc (l : List PopulatedMessage) : List PopulatedMessage :=
  l.insertionSort (fun a b => a.doc.createdAt ≤ b.doc.createdAt)

/-- `.sort({ createdAt: -1 })`: descending creation time, stable. -/
def sortCreatedAtDesc (l : List PopulatedMessage) : List PopulatedMessage :=
  l.insertionSort (fun a b => b.doc.createdAt ≤ a.doc.createdAt)

/-- `getConversation` of `chatController.js` for the authenticated user `user`
and the path parameter `otherUserId`. -/
def getConversation (db : Db) (user : ObjectId) (otherUserId : JSString) :
    Response (List PopulatedMessage) :=
  let conversationId := getConversationId user.toString otherUserId
  let messages := sortCreatedAtAsc
    ((db.messages.filter (fun m => decide (m.conversationId = conversationId))).map (populate db))
  { status := 200, success := true, message := none, count := some messages.length,
    data := some messages }

/-- One value of `conversationsMap`. -/
structure Summary where
  user : User
  lastMessage : PopulatedMessage
  unreadCount : Nat
deriving DecidableEq, Repr

/-- A JavaScript `Map` with string keys: its entries in insertion order. -/
abbrev JSMap (β : Type) := List (JSString × β)

/-- `Map.prototype.has`. -/
def JSMap.has {β : Type} (m : JSMap β) (k : JSString) : Bool :=
  m.any (fun e => decide (e.1 = k))

/-- `Map.prototype.set`: a new key is appended, an existing key keeps its place. -/
def JSMap.set {β : Type} (m : JSMap β) (k : JSString) (v : β) : JSMap β :=
  if m.has k then m.map (fun e => if e.1 = k then (k, v) else e) else m ++ [(k, v)]

/-- `Map.prototype.get`. -/
def JSMap.get {β : Type} (m : JSMap β) (k : JSString) : Option β :=
  (m.find? (fun e => decide (e.1 = k))).map Prod.snd

/-- In-place mutation of the value stored under `k` (the object `get` returned). -/
def JSMap.modify {β : Type} (m : JSMap β) (k : JSString) (f : β → β) : JSMap β :=
  m.map (fun e => if e.1 = k then (e.1, f e.2) else e)

/-- `Array.from(map.values())`. -/
def JSMap.values {β : Type} (m : JSMap β) : List β := m.map Prod.snd

/-- Reading a property of a populated reference: a `TypeError` on `null`. -/
def deref (u : Option User) : Except Thrown User :=
  match u with
  | some u => Except.ok u
  | none => Except.error Thrown.typeError

/-- The body of the `messages.forEach` callback of `getAllConversations`. -/
def conversationsStep (userId : JSString) (conversationsMap : JSMap Summary)
    (message : PopulatedMessage) : Except Thrown (JSMap Summary) := do
  let sender ← deref message.sender
  let otherUser ← deref (if sender._id.toString = userId then message.receiver else message.sender)
  let otherUserId := otherUser._id.toString
  let conversationsMap :=
    if !conversationsMap.has otherUserId then
      conversationsMap.set otherUserId { user := otherUser, lastMessage := message, unreadCount := 0 }
    else conversationsMap
  let receiver ← deref message.receiver
  if receiver._id.toString = userId ∧ !message.doc.isRead then
    match conversationsMap.get otherUserId with
    | some _ => pure (conversationsMap.modify otherUserId
        (fun s => { s with unreadCount := s.unreadCount + 1 }))
    | none => Except.error Thrown.typeError
  else pure conversationsMap

/-- `messages.forEach(callback)` starting from the map built so far. -/
def conversationsLoop (userId : JSString) :
    JSMap Summary → List PopulatedMessage → Except Thrown (JSMap Summary)
  | conversationsMap, [] => Except.ok conversationsMap
  | conversationsMap, message :: rest =>
    match conversationsStep userId conversationsMap message with
    | Except.ok next => conversationsLoop userId next rest
    | Except.error e => Except.error e

/-- `getAllConversations` of `chatController.js` for the authenticated user
`user`. The query casts `userId` back to the ObjectId it was printed from. -/
def getAllConversations (db : Db) (user : ObjectId) : Response (List Summary) :=
  let userId := user.toString
  let messages := sortCreatedAtDesc
    ((db.messages.filter (fun m => decide (m.sender = user ∨ m.receiver = user))).map (populate db))
  match conversationsLoop userId [] messages with
  | Except.ok conversationsMap =>
    let conversations := conversationsMap.values
    { status := 200, success := true, message := none, count := some conversations.length,
      data := some conversations }
  | Except.error e => serverError e

/-- The `Message.updateMany({ conversationId, receiver, isRead: false }, { isRead: true })`
call of `markMessagesAsRead`: every stored document that matches the filter gets
`isRead = true` and, the schema having `timestamps: true`, `updatedAt = now`; the
other documents and the storage order are untouched. -/
def Message.updateMany (db : Db) (now : Nat) (conversationId : JSString) (receiver : ObjectId) :
    Db :=
  { db with messages := db.messages.map (fun m =>
      if m.conversationId = conversationId ∧ m.receiver = receiver ∧ m.isRead = false then
        { m with isRead := true, updatedAt := now }
      else m) }

/-- `markMessagesAsRead` of `chatController.js` for the authenticated user `user`
and the path parameter `otherUserId`; returns the response and the database
after the call. -/
def markMessagesAsRead (db : Db) (now : Nat) (user : ObjectId) (otherUserId : JSString) :
    Response Unit × Db :=
  let conversationId := getConversationId user.toString otherUserId
  let db1 := Message.updateMany db now conversationId user
  ({ status := 200, success := true, message := some (Msg.text "Messages marked as read"),
     count := none, data := none }, db1)

/-! ## Presence directory and relay (`server.js`)

The socket handlers of `server.js` on the process-wide `activeUsers` map. A
handler returns the map after the event and the events it emits, in order. -/

/-- A connection handle, `socket.id`: an identifier socket.io generates for each
connection (a non-empty string, so a handle found in the map is truthy). -/
structure SocketId where
  n : Nat
deriving DecidableEq, Repr

/-- `Map.prototype.delete`. -/
def JSMap.delete {β : Type} (m : JSMap β) (k : JSString) : JSMap β :=
  m.filter (fun e => !decide (e.1 = k))

/-- Where an event is sent: `io.to(socketId).emit(...)` reaches that connection,
`socket.broadcast.emit(...)` reaches every connection but `socket`. -/
inductive Target where
  | to (socketId : SocketId)
  | broadcast (socket : SocketId)
deriving DecidableEq, Repr

/-- The argument of an emitted event: a user identity, or the relayed message
object (of whatever shape the client sent, `μ`). -/
inductive Payload (μ : Type) where
  | id (userId : JSString)
  | message (m : μ)
deriving DecidableEq, Repr

/-- One `emit` of the server. -/
structure Emission (μ : Type) where
  target : Target
  event : String
  payload : Payload μ
deriving DecidableEq, Repr

/-- The `user:join` handler of the connection `socket`. -/
def userJoin (μ : Type) (activeUsers : JSMap SocketId) (socket : SocketId) (userId : JSString) :
    JSMap SocketId × List (Emission μ) :=
  (JSMap.set activeUsers userId socket,
    [{ target := Target.broadcast socket, event := "user:online", payload := Payload.id userId }])

/-- The `message:send` handler, on `data = { receiverId, message }`. -/
def messageSend {μ : Type} (activeUsers : JSMap SocketId) (receiverId : JSString) (message : μ) :
    List (Emission μ) :=
  match JSMap.get activeUsers receiverId with
  | some receiverSocketId =>
    [{ target := Target.to receiverSocketId, event := "message:receive",
       payload := Payload.message message }]
  | none => []

/-- The `typing:start` handler, on `data = { receiverId, senderId }`. -/
def typingStart (μ : Type) (activeUsers : JSMap SocketId) (receiverId senderId : JSString) :
    List (Emission μ) :=
  match JSMap.get activeUsers receiverId with
  | some receiverSocketId =>
    [{ target := Target.to receiverSocketId, event := "typing:show",
       payload := Payload.id senderId }]
  | none => []

/-- The `typing:stop` handler, on `data = { receiverId, senderId }`. -/
def typingStop (μ : Type) (activeUsers : JSMap SocketId) (receiverId senderId : JSString) :
    List (Emission μ) :=
  match JSMap.get activeUsers receiverId with
  | some receiverSocketId =>
    [{ target := Target.to receiverSocketId, event := "typing:hide",
       payload := Payload.id senderId }]
  | none => []

/-- The `disconnect` handler of the connection `socket`: the loop over
`activeUsers.entries()` stops at the first entry whose value is `socket.id`. -/
def disconnect (μ : Type) (activeUsers : JSMap SocketId) (socket : SocketId) :
    JSMap SocketId × List (Emission μ) :=
  match activeUsers.find? (fun e => decide (e.2 = socket)) with
  | some (userId, _) =>
    (JSMap.delete activeUsers userId,
      [{ target := Target.broadcast socket, event := "user:offline",
         payload := Payload.id userId }])
  | none => (activeUsers, [])

/-- An event a client sends over its connection. -/
inductive ClientEvent (μ : Type) where
  | userJoin (userId : JSString)
  | messageSend (receiverId : JSString) (message : μ)
  | typingStart (receiverId senderId : JSString)
  | typingStop (receiverId senderId : JSString)
  | disconnect
deriving DecidableEq, Repr

/-- The server's reaction to one event received on connection `socket`: the
handler registered for it runs to completion. Only `user:join` and `disconnect`
assign to `activeUsers`. -/
def handleEvent {μ : Type} (activeUsers : JSMap SocketId) (socket : SocketId) :
    ClientEvent μ → JSMap SocketId × List (Emission μ)
  | ClientEvent.userJoin userId => userJoin μ activeUsers socket userId
  | ClientEvent.messageSend receiverId message =>
    (activeUsers, messageSend activeUsers receiverId message)
  | ClientEvent.typingStart receiverId senderId =>
    (activeUsers, typingStart μ activeUsers receiverId senderId)
  | ClientEvent.typingStop receiverId senderId =>
    (activeUsers, typingStop μ activeUsers receiverId senderId)
  | ClientEvent.disconnect => disconnect μ activeUsers socket

/-! ## Client session (`client/src/pages/Chat.jsx`)

The state of the chat page and the handlers that change its message list. A
handler is modelled on the state it finds, with the outcome of the request it
awaits given as an argument; it returns the state it leaves and the requests
and notifications it issued, in order. -/

/-- A user object held by the client: a populated reference (`_id`, `name`,
`profileImage`) or an object with fewer fields (a missing field is `none`). -/
structure ClientUser where
  _id : JSString
  name : Option JSString
  profileImage : Option JSString
deriving DecidableEq, Repr

/-- A message object of the client's `messages` list: a record returned by the
server, or a provisional one built by `handleSendMessage` (which has no `isRead`,
`conversationId` or `updatedAt`). A reference the server could not populate is
`none`; `createdAt` is the instant the ISO string denotes, in milliseconds. -/
structure ClientMessage where
  _id : JSString
  sender : Option ClientUser
  receiver : Option ClientUser
  content : JSString
  createdAt : Nat
  isRead : Option Bool
  conversationId : Option JSString
  updatedAt : Option Nat
deriving DecidableEq, Repr

/-- An entry of the client's `conversations` list. -/
structure Conversation where
  user : ClientUser
  lastMessage : Option ClientMessage
  unreadCount : Nat
deriving DecidableEq, Repr

/-- The state of the chat page that the message handlers read and write: the
authenticated `user`, the React states `selectedUser`, `messages` and
`conversations`, and whether the socket of `socketService` is connected. -/
structure ChatState where
  user : ClientUser
  selectedUser : Option ClientUser
  messages : List ClientMessage
  conversations : List Conversation
  connected : Bool
deriving DecidableEq, Repr

/-- What a handler does besides updating state: `messageAPI.sendMessage(body)`,
`socket.emit('message:send', { receiverId, message })`, `toast.error(text)`. -/
inductive ClientEffect where
  | apiSendMessage (receiverId content : JSString)
  | emitMessageSend (receiverId : JSString) (message : ClientMessage)
  | toastError (text : String)
deriving DecidableEq, Repr

/-- The decimal digits of a number, as `String(n)` prints them. -/
def decimal (n : Nat) : JSString := (Nat.toDigits 10 n).map Char.toNat

/-- The template literal `temp_${Date.now()}` for the clock reading `now`. -/
def tempIdOf (now : Nat) : JSString := [116, 101, 109, 112, 95] ++ decimal now

/-- The `tempMessage` of `handleSendMessage`; `createdNow` is the clock reading
of `new Date()`. -/
def tempMessage (user selectedUser : ClientUser) (now createdNow : Nat) (content : JSString) :
    ClientMessage :=
  { _id := tempIdOf now,
    sender := some { _id := user._id, name := user.name, profileImage := user.profileImage },
    receiver := some { _id := selectedUser._id, name := none, profileImage := none },
    content := trim content,
    createdAt := createdNow,
    isRead := none, conversationId := none, updatedAt := none }

/-- The value of `ref?._id || ref` as far as `===` with a string can tell: the
`_id` of a populated reference when it is a non-empty string, and otherwise
(`null`, or the object itself) something no string is equal to. -/
def refId (ref : Option ClientUser) : Option JSString :=
  match ref with
  | some u => if u._id = [] then none else some u._id
  | none => none

/-- The updater that `updateConversationWithNewMessage(message)` passes to
`setConversations`, for the authenticated user's `_id`. -/
def updateConversationWithNewMessage (userId : JSString) (message : ClientMessage)
    (prev : List Conversation) : List Conversation :=
  let otherUserId :=
    if refId message.sender = some userId then refId message.receiver else refId message.sender
  match prev.findIdx? (fun conv => decide (some conv.user._id = otherUserId)) with
  | some existingConvIndex =>
    match prev.get? existingConvIndex with
    | some conv => { conv with lastMessage := some message } :: prev.eraseIdx existingConvIndex
    | none => prev
  | none => prev

/-- `socketService.sendMessage(receiverId, message)`: `emit` sends only while the
socket is connected. -/
def socketSendMessage (connected : Bool) (receiverId : JSString) (message : ClientMessage) :
    List ClientEffect :=
  if connected then [ClientEffect.emitMessageSend receiverId message] else []

/-- `handleSendMessage(content)` of `Chat.jsx`, run from the state `st` with no
other update in between. `now` is the reading of `Date.now()`, `createdNow` that
of `new Date()`, and `persist` the outcome of the awaited
`messageAPI.sendMessage`: `some savedMessage` (`response.data.data`) when it
resolves, `none` when it rejects. -/
def handleSendMessage (st : ChatState) (now createdNow : Nat) (content : JSString)
    (persist : Option ClientMessage) : ChatState × List ClientEffect :=
  match st.selectedUser with
  | none => (st, [])
  | some selectedUser =>
    if trim content = [] then (st, [])
    else
      let tempId := tempIdOf now
      let st1 := { st with
        messages := st.messages ++ [tempMessage st.user selectedUser now createdNow content] }
      let request := ClientEffect.apiSendMessage selectedUser._id (trim content)
      match persist with
      | some savedMessage =>
        let st2 := { st1 with
          messages := st1.messages.map
            (fun msg : ClientMessage => if msg._id = tempId then savedMessage else msg) }
        ({ st2 with conversations :=
              updateConversationWithNewMessage st.user._id savedMessage st2.conversations },
          request :: socketSendMessage st.connected selectedUser._id savedMessage)
      | none =>
        ({ st1 with messages := st1.messages.filter (fun msg : ClientMessage => !decide (msg._id = tempId)) },
          [request, ClientEffect.toastError "Failed to send message"])

/-- Whether an effect is the persist request. -/
def ClientEffect.isPersistRequest : ClientEffect → Bool
  | ClientEffect.apiSendMessage _ _ => true
  | _ => false

/-- The `message:receive` listener that `Chat.jsx` registers: the message is
appended to `messages` unless an entry with its `_id` is already there, and
`updateConversationWithNewMessage(message)` runs in either case. -/
def onMessageReceive (st : ChatState) (message : ClientMessage) : ChatState :=
  { st with
    messages :=
      match st.messages.find? (fun m => decide (m._id = message._id)) with
      | some _ => st.messages
      | none => st.messages ++ [message],
    conversations := updateConversationWithNewMessage st.user._id message st.conversations }

/-- `fetchConversations()`: `response` is the list in `response.data.data` when
`messageAPI.getAllConversations()` resolves, `none` when it rejects (the
conversations are then left as they are). -/
def fetchConversations (st : ChatState) (response : Option (List Conversation)) : ChatState :=
  match response with
  | some convs => { st with conversations := convs }
  | none => st

/-- `handleSelectUser(otherUser)`, run with no other update in between: `loaded`
is the list `messageAPI.getConversation` resolves with (`none` when it rejects),
`marked` tells whether `messageAPI.markAsRead` resolves. Either rejection ends in
the `catch`, which empties the message list. -/
def handleSelectUser (st : ChatState) (otherUser : ClientUser)
    (loaded : Option (List ClientMessage)) (marked : Bool) : ChatState :=
  match loaded with
  | some loadedMessages =>
    if marked then
      { st with
        selectedUser := some otherUser,
        messages := loadedMessages,
        conversations := st.conversations.map (fun conv : Conversation =>
          if conv.user._id = otherUser._id then { conv with unreadCount := 0 } else conv) }
    else { st with selectedUser := some otherUser, messages := [] }
  | none => { st with selectedUser := some otherUser, messages := [] }

/-- `handleUserFromUrl(targetUserId)`, run while no other call of it is in
flight and with no other update in between: `profile` is the user object
`userAPI.getProfile` resolves with (`none` when it rejects, which leaves the
state as it is); `loaded` and `marked` are the outcomes `handleSelectUser` meets
when the counterpart is already listed. -/
def handleUserFromUrl (st : ChatState) (targetUserId : JSString) (profile : Option ClientUser)
    (loaded : Option (List ClientMessage)) (marked : Bool) : ChatState :=
  match st.conversations.find? (fun conv => decide (conv.user._id = targetUserId)) with
  | some existingConv => handleSelectUser st existingConv.user loaded marked
  | none =>
    match profile with
    | some userData =>
      { st with
        selectedUser := some userData,
        messages := [],
        conversations :=
          { user := userData, lastMessage := none, unreadCount := 0 } :: st.conversations }
    | none => st

/-- An `emit` of the typing protocol by the client:
`socket.emit('typing:start', { receiverId, senderId })` and the same for
`typing:stop`. -/
inductive TypingEffect where
  | emitTypingStart (receiverId senderId : JSString)
  | emitTypingStop (receiverId senderId : JSString)
deriving DecidableEq, Repr

/-- A timeout armed by `handleTyping`: the instant it is due and the arguments
its callback captured. -/
structure TypingTimer where
  due : Nat
  receiverId : JSString
  senderId : JSString
deriving DecidableEq, Repr

/-- The chat page together with the live timeout held in `typingTimeout.current`
(`none` when none is armed, or the one armed has run or been cleared). -/
structure TypingSession where
  chat : ChatState
  typingTimeout : Option TypingTimer
deriving DecidableEq, Repr

/-- `socketService.startTyping(receiverId, senderId)`: `emit` sends only while
the socket is connected. -/
def socketStartTyping (connected : Bool) (receiverId senderId : JSString) : List TypingEffect :=
  if connected then [TypingEffect.emitTypingStart receiverId senderId] else []

/-- `socketService.stopTyping(receiverId, senderId)`. -/
def socketStopTyping (connected : Bool) (receiverId senderId : JSString) : List TypingEffect :=
  if connected then [TypingEffect.emitTypingStop receiverId senderId] else []

/-- `handleTyping()` of `Chat.jsx`, called at clock reading `now`: emits
`typing:start`, clears the timeout armed before and arms one of 2000 ms. -/
def handleTyping (s : TypingSession) (now : Nat) : TypingSession × List TypingEffect :=
  match s.chat.selectedUser with
  | none => (s, [])
  | some selectedUser =>
    let timer : TypingTimer :=
      { due := now + 2000, receiverId := selectedUser._id, senderId := s.chat.user._id }
    ({ s with typingTimeout := some timer },
      socketStartTyping s.chat.connected selectedUser._id s.chat.user._id)

/-- The callback of the timeout armed by `handleTyping`, run when it fires. -/
def typingTimeoutFires (s : TypingSession) (timer : TypingTimer) :
    TypingSession × List TypingEffect :=
  ({ s with typingTimeout := none },
    socketStopTyping s.chat.connected timer.receiverId timer.senderId)

/-- The event loop reaching instant `t`: the live timeout runs if it is due by
then. The result lists what was emitted, with the instant of emission. -/
def runDueTimers (s : TypingSession) (t : Nat) : TypingSession × List (Nat × TypingEffect) :=
  match s.typingTimeout with
  | some timer =>
    if timer.due ≤ t then
      ((typingTimeoutFires s timer).1,
        (typingTimeoutFires s timer).2.map (fun e => (timer.due, e)))
    else (s, [])
  | none => (s, [])

/-- Keystrokes at the instants `keystrokes` (in order), each handled by
`handleTyping` after the timeouts due by then have run, and then no input up to
the instant `horizon`: everything emitted, with the instant of emission. -/
def typingRun : TypingSession → List Nat → Nat → List (Nat × TypingEffect)
  | s, [], horizon => (runDueTimers s horizon).2
  | s, t :: keystrokes, horizon =>
    (runDueTimers s t).2 ++
      (handleTyping (runDueTimers s t).1 t).2.map (fun e => (t, e)) ++
      typingRun (handleTyping (runDueTimers s t).1 t).1 keystrokes horizon

/-- The server handling a sequence of events, each with the connection it
arrives on, one after the other. -/
def handleEvents {μ : Type} :
    JSMap SocketId → List (SocketId × ClientEvent μ) → JSMap SocketId × List (Emission μ)
  | activeUsers, [] => (activeUsers, [])
  | activeUsers, (socket, ev) :: rest =>
    ((handleEvents (handleEvent activeUsers socket ev).1 rest).1,
      (handleEvent activeUsers socket ev).2 ++
        (handleEvents (handleEvent activeUsers socket ev).1 rest).2)

/-- The JSON the client receives for a populated user reference. -/
def User.toClient (u : User) : ClientUser :=
  { _id := u._id.toString, name := some u.name, profileImage := some u.profileImage }

/-- The JSON the client receives for a populated message. -/
def PopulatedMessage.toClient (pm : PopulatedMessage) : ClientMessage :=
  { _id := pm.doc._id.toString,
    sender := pm.sender.map User.toClient,
    receiver := pm.receiver.map User.toClient,
    content := pm.doc.content,
    createdAt := pm.doc.createdAt,
    isRead := some pm.doc.isRead,
    conversationId := some pm.doc.conversationId,
    updatedAt := some pm.doc.updatedAt }

/-- The JSON the client receives for a summary of `getAllConversations`. -/
def Summary.toClient (s : Summary) : Conversation :=
  { user := s.user.toClient, lastMessage := some s.lastMessage.toClient,
    unreadCount := s.unreadCount }

/-- Whether an effect is the relay request `socket.emit('message:send', ...)`. -/
def ClientEffect.isRelayRequest : ClientEffect → Bool
  | ClientEffect.emitMessageSend _ _ => true
  | _ => false

/-! ## Auxiliary definitions used to state the properties -/

/-- The document `Message.create` inserts. -/
def newMessage (newId : ObjectId) (now : Nat) (sender receiver : ObjectId)
    (content conversationId : JSString) : Message :=
  { _id := newId, sender := sender, receiver := receiver, content := content,
    isRead := false, conversationId := conversationId, createdAt := now, updatedAt := now }

/-- The other participant of `m` as the callback of `getAllConversations`
picks it for user `u`: the receiver when `u` is the sender, else the sender. -/
def otherParticipant (u : ObjectId) (m : Message) : ObjectId :=
  if m.sender = u then m.receiver else m.sender

/-- Message `m` was exchanged between `u` and `v`. -/
def Between (u v : ObjectId) (m : Message) : Prop :=
  (m.sender = u ∧ m.receiver = v) ∨ (m.sender = v ∧ m.receiver = u)

instance (u v : ObjectId) (m : Message) : Decidable (Between u v m) := by
  unfold Between; infer_instance

/-- The key under which the callback files message `m` for user `u`. -/
def summaryKey (u : ObjectId) (m : Message) : JSString := (otherParticipant u m).toString

/-- The user document the callback stores for message `m`: the populated other
participant (a placeholder with the right `_id` when it does not resolve, a
case in which the callback throws before using it). -/
def otherUser (db : Db) (u : ObjectId) (m : Message) : User :=
  (findUser db (otherParticipant u m)).getD
    { _id := otherParticipant u m, name := [], profileImage := [] }

/-- The entry the callback creates when it meets message `m` first. -/
def summaryEntry (db : Db) (u : ObjectId) (m : Message) : Summary :=
  { user := otherUser db u m, lastMessage := populate db m, unreadCount := 0 }

/-- The test of the callback for counting `m` as unread. -/
def unreadFlag (u : ObjectId) (m : Message) : Bool := decide (m.receiver = u) && !m.isRead

/-- The effect of the callback on the map when no property access throws. -/
def summaryStep (map : JSMap Summary) (k : JSString) (s : Summary) (b : Bool) : JSMap Summary :=
  if b then
    (if map.has k then map else map ++ [(k, s)]).modify k
      (fun s => { s with unreadCount := s.unreadCount + 1 })
  else (if map.has k then map else map ++ [(k, s)])

/-- The loop of `getAllConversations` on stored documents whose references resolve. -/
def summaryLoop (db : Db) (u : ObjectId) : JSMap Summary → List Message → JSMap Summary
  | map, [] => map
  | map, m :: l =>
    summaryLoop db u (summaryStep map (summaryKey u m) (summaryEntry db u m) (unreadFlag u m)) l

/-- Both references of `m` resolve to user documents. -/
def Resolved (db : Db) (m : Message) : Prop :=
  (findUser db m.sender).isSome = true ∧ (findUser db m.receiver).isSome = true

/-- Adding `n` to the unread count of a summary. -/
def Summary.addUnread (n : Nat) (s : Summary) : Summary :=
  { s with unreadCount := s.unreadCount + n }

/-- The number of messages of `l` the callback counts as unread under key `k`. -/
def unreadIn (u : ObjectId) (k : JSString) (l : List Message) : Nat :=
  l.countP (fun m => decide (summaryKey u m = k) && unreadFlag u m)

/-- The documents `getAllConversations` loops over, in the order of the loop:
those `u` sent or received, most recent first (stable). -/
def conversationDocs (db : Db) (u : ObjectId) : List Message :=
  (db.messages.filter (fun m => decide (m.sender = u ∨ m.receiver = u))).insertionSort
    (fun a b => b.createdAt ≤ a.createdAt)

/-- The `receiverId` of a relay request (`message:send`, `typing:start`,
`typing:stop`); `none` for the two presence events. -/
def ClientEvent.receiverId {μ : Type} : ClientEvent μ → Option JSString
  | ClientEvent.messageSend receiverId _ => some receiverId
  | ClientEvent.typingStart receiverId _ => some receiverId
  | ClientEvent.typingStop receiverId _ => some receiverId
  | ClientEvent.userJoin _ => none
  | ClientEvent.disconnect => none

/-- The message `m` has the user with identity `id` as its sender or its
receiver. -/
def ClientMessage.Involves (m : ClientMessage) (id : JSString) : Prop :=
  refId m.sender = some id ∨ refId m.receiver = some id

instance (m : ClientMessage) (id : JSString) : Decidable (m.Involves id) := by
  unfold ClientMessage.Involves; infer_instance

/-- Summaries with no last message come before all others. -/
def EmptyFirst (l : List Conversation) : Prop :=
  l.Pairwise (fun a b => b.lastMessage = none → a.lastMessage = none)

instance (l : List Conversation) : Decidable (EmptyFirst l) := by
  unfold EmptyFirst; infer_instance

/-- The summaries that have a last message are in descending order of its
creation time. -/
def RecencySorted (l : List Conversation) : Prop :=
  (l.filterMap (fun c => c.lastMessage)).Pairwise (fun a b => b.createdAt ≤ a.createdAt)

instance (l : List Conversation) : Decidable (RecencySorted l) := by
  unfold RecencySorted; infer_instance

/-- No counterpart appears twice. -/
def DistinctCounterparts (l : List Conversation) : Prop :=
  (l.map (fun c => c.user._id)).Nodup

instance (l : List Conversation) : Decidable (DistinctCounterparts l) := by
  unfold DistinctCounterparts; infer_instance

/-- The `otherUserId` that `updateConversationWithNewMessage` computes for the
page of user `userId`: the receiver of the message when the user sent it, its
sender otherwise. -/
def otherUserIdOf (userId : JSString) (message : ClientMessage) : Option JSString :=
  if refId message.sender = some userId then refId message.receiver else refId message.sender

/-! ## Example data -/

/-- A well-formed ObjectId: 23 digits `0` followed by the digit `d` (`d ≤ 9`). -/
def exampleId (d : Nat) : ObjectId := ⟨List.replicate 23 48 ++ [48 + d]⟩

/-- A registered user. -/
def alice : ObjectId := exampleId 1

/-- A registered user. -/
def bob : ObjectId := exampleId 2

/-- A well-formed identity that no user document carries. -/
def carol : ObjectId := exampleId 3

/-- Two registered users and no message. -/
def exampleDb : Db :=
  { users := [{ _id := alice, name := [65], profileImage := [] },
              { _id := bob, name := [66], profileImage := [] }],
    messages := [] }

/-- The database after `s` posts `content` to `r` at time `t` (the new `_id` is
`exampleId t`). -/
def exampleSend (db : Db) (t : Nat) (s r : ObjectId) (content : JSString) : Db :=
  (sendMessage db (exampleId t) t s { receiverId := some r.toString, content := some content }).2

/-- The scenario m1 (alice to bob), m2 (bob to alice), m3 (alice to bob). -/
def exampleDb3 : Db :=
  exampleSend (exampleSend (exampleSend exampleDb 7 alice bob [109, 49]) 8 bob alice [109, 50])
    9 alice bob [109, 51]

/-- The database after alice posts to the unregistered identity `carol`. -/
def danglingDb : Db := exampleSend exampleDb 7 alice carol [104, 105]

/-- The summary of `exampleDb3` that alice gets for bob. -/
def exampleSummary : Summary :=
  { user := { _id := bob, name := [66], profileImage := [] },
    lastMessage := populate exampleDb3
      (newMessage (exampleId 9) 9 alice bob [109, 51]
        (getConversationId alice.toString bob.toString)),
    unreadCount := 1 }

/-- A registered user whose identity ends in a hexadecimal letter: `00...0a`. -/
def dave : ObjectId := ⟨List.replicate 23 48 ++ [97]⟩

/-- The identity of `dave` written with an upper-case digit: `00...0A`. -/
def daveUpper : JSString := List.replicate 23 48 ++ [65]

/-- Registered users bob and dave, no message. -/
def letterDb : Db :=
  { users := [{ _id := bob, name := [66], profileImage := [] },
              { _id := dave, name := [68], profileImage := [] }],
    messages := [] }

/-- The database after bob posts to dave at time 7, writing the receiver
identity in upper case. -/
def upperDb : Db :=
  (sendMessage letterDb (exampleId 7) 7 bob
    { receiverId := some daveUpper, content := some [104, 105] }).2

/-- A presence directory: alice on connection 1, bob on connection 2. -/
def exampleDirectory : JSMap SocketId :=
  [(alice.toString, SocketId.mk 1), (bob.toString, SocketId.mk 2)]

/-- The client's copy of alice's user object. -/
def aliceUser : ClientUser := { _id := alice.toString, name := some [65], profileImage := some [] }

/-- The client's copy of bob's user object. -/
def bobUser : ClientUser := { _id := bob.toString, name := some [66], profileImage := some [] }

/-- A record as the server returns it for a message of alice to bob with
durable identifier `exampleId 9`. -/
def savedExample : ClientMessage :=
  { _id := (exampleId 9).toString, sender := some aliceUser, receiver := some bobUser,
    content := [104, 105], createdAt := 9, isRead := some false,
    conversationId := some (getConversationId alice.toString bob.toString),
    updatedAt := some 9 }

/-- Alice's chat page with bob selected, one listed conversation and no message. -/
def exampleChat : ChatState :=
  { user := aliceUser, selectedUser := some bobUser, messages := [],
    conversations := [{ user := bobUser, lastMessage := none, unreadCount := 0 }],
    connected := true }

/-- The chat page while a send started at clock reading 5 is still awaiting its
answer: its provisional message is in the list. -/
def pendingChat : ChatState :=
  { exampleChat with messages := [tempMessage aliceUser bobUser 5 5 [97]] }

/-- The client's copy of a third user, carol. -/
def carolUser : ClientUser :=
  { _id := carol.toString, name := some [67], profileImage := some [] }

/-- Alice's chat page with bob selected and the record `savedExample` (alice to
bob, created at 9) in the visible list. -/
def openChat : ChatState := { exampleChat with messages := [savedExample] }

/-- A record of bob to alice, created at 5, with durable identifier `exampleId 8`. -/
def earlierMessage : ClientMessage :=
  { _id := (exampleId 8).toString, sender := some bobUser, receiver := some aliceUser,
    content := [111, 107], createdAt := 5, isRead := some false,
    conversationId := some (getConversationId bob.toString alice.toString),
    updatedAt := some 5 }

/-- A record of carol to alice, created at 10, with durable identifier
`exampleId 7`. -/
def carolMessage : ClientMessage :=
  { _id := (exampleId 7).toString, sender := some carolUser, receiver := some aliceUser,
    content := [121, 111], createdAt := 10, isRead := some false,
    conversationId := some (getConversationId carol.toString alice.toString),
    updatedAt := some 10 }

/-- A record of bob to alice, created at 12, with durable identifier `exampleId 6`. -/
def laterMessage : ClientMessage :=
  { _id := (exampleId 6).toString, sender := some bobUser, receiver := some aliceUser,
    content := [104, 101, 121], createdAt := 12, isRead := some false,
    conversationId := some (getConversationId bob.toString alice.toString),
    updatedAt := some 12 }

/-- A conversation list: carol, just opened (no last message), in front of bob,
whose last message is `savedExample`. -/
def exampleConversations : List Conversation :=
  [{ user := carolUser, lastMessage := none, unreadCount := 0 },
   { user := bobUser, lastMessage := some savedExample, unreadCount := 0 }]

/-- Alice's typing session with bob selected, the socket connected and no
timeout armed. -/
def exampleTyping : TypingSession := { chat := exampleChat, typingTimeout := none }

/-- The same session while the socket is not connected. -/
def offlineTyping : TypingSession :=
  { chat := { exampleChat with connected := false }, typingTimeout := none }

/-- Connection 1 announces alice and then bob, and is closed. -/
def twoJoinsThenClose : List (SocketId × ClientEvent JSString) :=
  [(SocketId.mk 1, ClientEvent.userJoin alice.toString),
   (SocketId.mk 1, ClientEvent.userJoin bob.toString),
   (SocketId.mk 1, ClientEvent.disconnect)]

/-- Registered users alice, bob and dave; alice has posted to bob at 7 and dave
to alice at 8. -/
def threeDb : Db :=
  exampleSend
    (exampleSend
      { users := [{ _id := alice, name := [65], profileImage := [] },
                  { _id := bob, name := [66], profileImage := [] },
                  { _id := dave, name := [68], profileImage := [] }],
        messages := [] }
      7 alice bob [104, 105])
    8 dave alice [104, 111]

/-- Alice's chat page with bob selected and one answered record of bob in the
visible list. -/
def answeredChat : ChatState := { exampleChat with messages := [earlierMessage] }

/-- The record the server returns for a message "b" of alice to bob, created at
6, with durable identifier `exampleId 9`. -/
def savedSecond : ClientMessage :=
  { _id := (exampleId 9).toString, sender := some aliceUser, receiver := some bobUser,
    content := [98], createdAt := 6, isRead := some false,
    conversationId := some (getConversationId alice.toString bob.toString),
    updatedAt := some 6 }

/-- The client's copy of dave's user object, as the server returns it. -/
def daveUser : ClientUser := { _id := dave.toString, name := some [68], profileImage := some [] }

/-- The client's copy of a user who is not listed yet, with identity `exampleId 4`. -/
def erinUser : ClientUser :=
  { _id := (exampleId 4).toString, name := some [69], profileImage := some [] }

/-- A record of dave to alice, created at 5, with durable identifier `exampleId 5`. -/
def daveMessage : ClientMessage :=
  { _id := (exampleId 5).toString, sender := some daveUser, receiver := some aliceUser,
    content := [121, 111], createdAt := 5, isRead := some false,
    conversationId := some (getConversationId dave.toString alice.toString),
    updatedAt := some 5 }

/-- Alice's chat page listing carol (just opened, no last message), bob (last
message `savedExample`, created at 9) and dave (last message `daveMessage`,
created at 5). -/
def listedChat : ChatState :=
  { exampleChat with conversations :=
      [{ user := carolUser, lastMessage := none, unreadCount := 0 },
       { user := bobUser, lastMessage := some savedExample, unreadCount := 0 },
       { user := daveUser, lastMessage := some daveMessage, unreadCount := 1 }] }

/-! ## Facts about the string order -/

theorem jsLt_irrefl (a : JSString) : jsLt a a = false := by
  induction a with
  | nil => rfl
  | cons x xs ih => simp [jsLt, ih]

theorem jsLt_asymm : ∀ a b : JSString, jsLt a b = true → jsLt b a = false
  | [], [], h => by simp [jsLt] at h
  | [], _ :: _, _ => by simp [jsLt]
  | _ :: _, [], h => by simp [jsLt] at h
  | x :: xs, y :: ys, h => by
    rcases Nat.lt_trichotomy x y with hxy | hxy | hxy
    · simp [jsLt, hxy, Nat.lt_asymm hxy]
    · subst hxy
      simp [jsLt] at h ⊢
      exact jsLt_asymm xs ys h
    · simp [jsLt, hxy, Nat.lt_asymm hxy] at h

theorem jsLt_total : ∀ a b : JSString, jsLt a b = false → jsLt b a = false → a = b
  | [], [], _, _ => rfl
  | [], _ :: _, h, _ => by simp [jsLt] at h
  | _ :: _, [], _, h => by simp [jsLt] at h
  | x :: xs, y :: ys, h1, h2 => by
    rcases Nat.lt_trichotomy x y with hxy | hxy | hxy
    · simp [jsLt, hxy] at h1
    · subst hxy
      simp [jsLt] at h1 h2
      rw [jsLt_total xs ys h1 h2]
    · simp [jsLt, hxy] at h2

theorem getConversationId_eq (a b : JSString) :
    getConversationId a b = if jsLt b a then b ++ dash :: a else a ++ dash :: b := by
  unfold getConversationId jsSort jsSort jsSort sortInsert sortInsert sortCompare
  by_cases hba : jsLt b a = true
  · have hab := jsLt_asymm b a hba
    simp [hba, hab, join]
  · simp only [Bool.not_eq_true] at hba
    by_cases hab : jsLt a b = true
    · simp [hba, hab, join]
    · simp only [Bool.not_eq_true] at hab
      simp [hba, hab, join]

/-! ## Facts about `sendMessage` -/

theorem getConversationId_ne_nil (a b : JSString) : getConversationId a b ≠ [] := by
  rw [getConversationId_eq]
  split <;> simp

theorem contentErrors_eq_nil {t : JSString} :
    contentErrors t = [] ↔ t ≠ [] ∧ t.length ≤ 1000 := by
  unfold contentErrors
  by_cases h0 : t.length = 0
  · simp [h0, List.length_eq_zero.mp h0]
  · by_cases h1 : 1000 < t.length
    · simp [h0, h1]
    · have : t ≠ [] := fun h => h0 (by simp [h])
      simp [h0, h1, this]
      omega

theorem Message.create_ok (db : Db) (newId : ObjectId) (now : Nat) (sender rid : ObjectId)
    (receiver content conversationId : JSString)
    (hr : castObjectId receiver = some rid) (hc : trim content ≠ [])
    (hlen : (trim content).length ≤ 1000) (hconv : conversationId ≠ [])
    (hfresh : ∀ m ∈ db.messages, m._id ≠ newId) :
    Message.create db newId now sender receiver content conversationId =
      Except.ok (newMessage newId now sender rid (trim content) conversationId,
        { db with messages := db.messages ++
            [newMessage newId now sender rid (trim content) conversationId] }) := by
  have hce : contentErrors (trim content) = [] := contentErrors_eq_nil.mpr ⟨hc, hlen⟩
  have hcl : ¬ conversationId.length = 0 := fun h => hconv (List.length_eq_zero.mp h)
  have hany : db.messages.any (fun m => decide (m._id = newId)) = false := by
    rw [List.any_eq_false]
    intro m hm
    simpa using hfresh m hm
  simp [Message.create, hr, hce, hcl, hany, newMessage]

theorem Message.create_error (db : Db) (newId : ObjectId) (now : Nat) (sender : ObjectId)
    (receiver content conversationId : JSString)
    (h : castObjectId receiver = none ∨ trim content = [] ∨ 1000 < (trim content).length ∨
      ∃ m ∈ db.messages, m._id = newId) :
    ∃ e, Message.create db newId now sender receiver content conversationId = Except.error e := by
  unfold Message.create
  simp only []
  split
  · rename_i rid hrid herr
    simp only [List.append_eq_nil] at herr
    obtain ⟨⟨h1, h2⟩, h3⟩ := herr
    rcases h with h | h | h | h
    · simp [h] at hrid
    · have := (contentErrors_eq_nil.mp h2).1
      exact absurd h this
    · have := (contentErrors_eq_nil.mp h2).2
      omega
    · obtain ⟨m, hm, hid⟩ := h
      have : db.messages.any (fun m => decide (m._id = newId)) = true := by
        rw [List.any_eq_true]
        exact ⟨m, hm, by simpa using hid⟩
      simp [this]
  · exact ⟨_, rfl⟩

theorem castObjectId_length {s : JSString} {o : ObjectId} (h : castObjectId s = some o) :
    s.length = 24 := by
  unfold castObjectId at h
  split at h
  · rename_i hc; exact hc.1
  · simp at h

theorem findById_append_new (db : Db) (m : Message) (hfresh : ∀ x ∈ db.messages, x._id ≠ m._id) :
    Message.findById { db with messages := db.messages ++ [m] } m._id = some (populate db m) := by
  have hnone : db.messages.find? (fun x => decide (x._id = m._id)) = none := by
    rw [List.find?_eq_none]
    intro x hx
    simpa using hfresh x hx
  simp [Message.findById, List.find?_append, hnone, populate, findUser]

theorem sendMessage_ok (db : Db) (newId : ObjectId) (now : Nat) (user rid : ObjectId)
    (r c : JSString) (hr : castObjectId r = some rid) (hc : trim c ≠ [])
    (hlen : (trim c).length ≤ 1000) (hfresh : ∀ m ∈ db.messages, m._id ≠ newId) :
    sendMessage db newId now user { receiverId := some r, content := some c } =
      ({ status := 201, success := true, message := none, count := none,
         data := some (populate db
           (newMessage newId now user rid (trim c) (getConversationId user.toString r))) },
       { db with messages := db.messages ++
           [newMessage newId now user rid (trim c) (getConversationId user.toString r)] }) := by
  have hr0 : r ≠ [] := by
    intro h
    have := castObjectId_length hr
    simp [h] at this
  have hc0 : c ≠ [] := by
    intro h
    apply hc
    simp [h, trim]
  have hcreate := Message.create_ok db newId now user rid r c (getConversationId user.toString r)
    hr hc hlen (getConversationId_ne_nil _ _) hfresh
  have hfind := findById_append_new db
    (newMessage newId now user rid (trim c) (getConversationId user.toString r)) hfresh
  unfold sendMessage
  simp only [hr0, hc0, or_self, if_false, hcreate]
  rw [show (newMessage newId now user rid (trim c) (getConversationId user.toString r))._id = newId
    from rfl] at hfind ⊢
  rw [hfind]

theorem sendMessage_cases (db : Db) (newId : ObjectId) (now : Nat) (user : ObjectId)
    (body : SendBody) :
    ((sendMessage db newId now user body).1.success = false ∧
      ((sendMessage db newId now user body).1.status = 400 ∨
        (sendMessage db newId now user body).1.status = 500) ∧
      (sendMessage db newId now user body).1.data = none ∧
      (sendMessage db newId now user body).2 = db) ∨
    ∃ r c rid, body = { receiverId := some r, content := some c } ∧
      castObjectId r = some rid ∧ trim c ≠ [] ∧ (trim c).length ≤ 1000 ∧
      (∀ m ∈ db.messages, m._id ≠ newId) := by
  obtain ⟨rOpt, cOpt⟩ := body
  cases rOpt with
  | none => left; simp [sendMessage, badRequest]
  | some r =>
    cases cOpt with
    | none => left; simp [sendMessage, badRequest]
    | some c =>
      by_cases h0 : r = [] ∨ c = []
      · left; simp [sendMessage, badRequest, h0]
      · by_cases hgood : (∃ rid, castObjectId r = some rid) ∧ trim c ≠ [] ∧
            (trim c).length ≤ 1000 ∧ ∀ m ∈ db.messages, m._id ≠ newId
        · obtain ⟨⟨rid, hr⟩, hc, hlen, hfresh⟩ := hgood
          exact Or.inr ⟨r, c, rid, rfl, hr, hc, hlen, hfresh⟩
        · left
          have hbad : castObjectId r = none ∨ trim c = [] ∨ 1000 < (trim c).length ∨
              ∃ m ∈ db.messages, m._id = newId := by
            by_contra hcon
            simp only [not_or, not_exists, not_and, not_lt] at hcon
            apply hgood
            obtain ⟨h1, h2, h3, h4⟩ := hcon
            refine ⟨?_, h2, h3, fun m hm => h4 m hm⟩
            cases hco : castObjectId r with
            | none => exact absurd hco h1
            | some rid => exact ⟨rid, rfl⟩
          obtain ⟨e, he⟩ := Message.create_error db newId now user r c
            (getConversationId user.toString r) hbad
          simp [sendMessage, h0, he, serverError]

theorem trim_eq_nil_of_all {c : JSString} (h : c.all isWhiteSpace = true) : trim c = [] := by
  have h1 : c.dropWhile isWhiteSpace = [] := by
    rw [List.dropWhile_eq_nil_iff]
    intro x hx
    exact List.all_eq_true.mp h x hx
  simp [trim, h1]

/-! ## Facts about sorting and `getConversation` -/

theorem orderedInsert_append_last {α : Type} (r : α → α → Prop) [DecidableRel r] (x a : α)
    (h : r x a) (t : List α) :
    List.orderedInsert r x (t ++ [a]) = List.orderedInsert r x t ++ [a] := by
  induction t with
  | nil => simp [List.orderedInsert, h]
  | cons y t ih =>
    by_cases hxy : r x y
    · simp [List.orderedInsert, hxy]
    · simp [List.orderedInsert, hxy, ih]

theorem insertionSort_append_last {α : Type} (r : α → α → Prop) [DecidableRel r] (a : α)
    (l : List α) (h : ∀ b ∈ l, r b a) :
    (l ++ [a]).insertionSort r = l.insertionSort r ++ [a] := by
  induction l with
  | nil => simp
  | cons x l ih =>
    have hx : r x a := h x (List.mem_cons_self _ _)
    have hl : ∀ b ∈ l, r b a := fun b hb => h b (List.mem_cons_of_mem _ hb)
    rw [List.cons_append, List.insertionSort, ih hl, orderedInsert_append_last r x a hx,
      List.insertionSort]

theorem populate_appended (db : Db) (l : List Message) :
    populate { db with messages := l } = populate db := rfl

/-! ## Facts about `getAllConversations` -/

theorem findUser_id {db : Db} {id : ObjectId} {x : User} (h : findUser db id = some x) :
    x._id = id := by
  unfold findUser at h
  have := List.find?_some h
  simpa using this

theorem toString_inj {a b : ObjectId} : a.toString = b.toString ↔ a = b := by
  cases a; cases b; simp [ObjectId.toString]

theorem JSMap.has_iff {β : Type} (m : JSMap β) (k : JSString) :
    JSMap.has m k = true ↔ k ∈ m.map Prod.fst := by
  unfold JSMap.has
  rw [List.any_eq_true, List.mem_map]
  constructor
  · rintro ⟨e, he, hk⟩
    exact ⟨e, he, of_decide_eq_true hk⟩
  · rintro ⟨e, he, hk⟩
    exact ⟨e, he, decide_eq_true hk⟩

theorem JSMap.get_nil {β : Type} (k : JSString) : JSMap.get ([] : JSMap β) k = none := rfl

theorem JSMap.get_cons {β : Type} (e : JSString × β) (m : JSMap β) (k : JSString) :
    JSMap.get (e :: m) k = if e.1 = k then some e.2 else JSMap.get m k := by
  by_cases h : e.1 = k <;> simp [JSMap.get, List.find?_cons, h]

theorem JSMap.get_eq_none {β : Type} (m : JSMap β) (k : JSString) :
    JSMap.get m k = none ↔ k ∉ m.map Prod.fst := by
  induction m with
  | nil => simp [JSMap.get_nil]
  | cons e m ih =>
    rw [JSMap.get_cons, List.map_cons, List.mem_cons]
    by_cases h : e.1 = k
    · simp [h]
    · have h2 : ¬ k = e.1 := fun hk => h hk.symm
      simp only [h, if_false, ih, h2, false_or]

theorem JSMap.get_modify {β : Type} (m : JSMap β) (k k1 : JSString) (f : β → β) :
    JSMap.get (JSMap.modify m k f) k1 =
      if k1 = k then (JSMap.get m k).map f else JSMap.get m k1 := by
  induction m with
  | nil => simp [JSMap.modify, JSMap.get_nil]
  | cons e m ih =>
    have hm : JSMap.modify (e :: m) k f =
        (if e.1 = k then (e.1, f e.2) else e) :: JSMap.modify m k f := rfl
    rw [hm, JSMap.get_cons, JSMap.get_cons, JSMap.get_cons, ih]
    by_cases h1 : e.1 = k
    · by_cases h2 : k1 = k
      · have h3 : e.1 = k1 := h1.trans h2.symm
        simp [h1, h2]
      · have h3 : ¬ k = k1 := fun h => h2 h.symm
        simp [h1, h2, h3]
    · by_cases h2 : k1 = k
      · have h3 : ¬ e.1 = k1 := fun h => h1 (h.trans h2)
        simp [h1, h2]
      · simp [h1, h2]

theorem JSMap.keys_modify {β : Type} (m : JSMap β) (k : JSString) (f : β → β) :
    (JSMap.modify m k f).map Prod.fst = m.map Prod.fst := by
  induction m with
  | nil => rfl
  | cons e m ih =>
    have hm : JSMap.modify (e :: m) k f = (if e.1 = k then (e.1, f e.2) else e) :: JSMap.modify m k f := rfl
    rw [hm, List.map_cons, List.map_cons, ih]
    by_cases h : e.1 = k <;> simp [h]

theorem JSMap.get_append_single {β : Type} (m : JSMap β) (k k1 : JSString) (s : β)
    (h : JSMap.get m k1 = none) :
    JSMap.get (m ++ [(k, s)]) k1 = if k = k1 then some s else none := by
  induction m with
  | nil =>
    show JSMap.get [(k, s)] k1 = _
    rw [JSMap.get_cons, JSMap.get_nil]
  | cons e m ih =>
    rw [JSMap.get_cons] at h
    rw [List.cons_append, JSMap.get_cons]
    by_cases he : e.1 = k1
    · simp [he] at h
    · simp only [he, if_false] at h ⊢
      exact ih h

theorem JSMap.get_append_of_some {β : Type} (m : JSMap β) (k k1 : JSString) (s t : β)
    (h : JSMap.get m k1 = some t) :
    JSMap.get (m ++ [(k, s)]) k1 = some t := by
  induction m with
  | nil => simp [JSMap.get_nil] at h
  | cons e m ih =>
    rw [JSMap.get_cons] at h
    rw [List.cons_append, JSMap.get_cons]
    by_cases he : e.1 = k1
    · simpa [he] using h
    · simp only [he, if_false] at h ⊢
      exact ih h

theorem JSMap.get_of_mem {β : Type} (m : JSMap β) (k : JSString) (s : β)
    (hnd : (m.map Prod.fst).Nodup) (h : (k, s) ∈ m) : JSMap.get m k = some s := by
  induction m with
  | nil => simp at h
  | cons e m ih =>
    rw [List.map_cons, List.nodup_cons] at hnd
    rw [JSMap.get_cons]
    rcases List.mem_cons.mp h with h | h
    · subst h; simp
    · have hk : k ∈ m.map Prod.fst := List.mem_map.mpr ⟨(k, s), h, rfl⟩
      have : ¬ e.1 = k := fun he => hnd.1 (he ▸ hk)
      simp only [this, if_false]
      exact ih hnd.2 h

theorem summaryStep_keys (map : JSMap Summary) (k : JSString) (s : Summary) (b : Bool) :
    (summaryStep map k s b).map Prod.fst =
      if k ∈ map.map Prod.fst then map.map Prod.fst else map.map Prod.fst ++ [k] := by
  unfold summaryStep
  by_cases hk : k ∈ map.map Prod.fst
  · have hh : JSMap.has map k = true := (JSMap.has_iff map k).mpr hk
    cases b <;> simp [hh, hk, JSMap.keys_modify]
  · have hh : JSMap.has map k = false := by
      rw [← Bool.not_eq_true, JSMap.has_iff]; exact hk
    cases b <;> simp [hh, hk, JSMap.keys_modify]

theorem summaryStep_get (map : JSMap Summary) (k k1 : JSString) (s : Summary) (b : Bool) :
    JSMap.get (summaryStep map k s b) k1 =
      if k1 = k then some (Summary.addUnread (if b then 1 else 0) ((JSMap.get map k).getD s))
      else JSMap.get map k1 := by
  have hbase : ∀ k2, JSMap.get (if JSMap.has map k then map else map ++ [(k, s)]) k2 =
      if k2 = k then some ((JSMap.get map k).getD s) else JSMap.get map k2 := by
    intro k2
    by_cases hh : JSMap.has map k = true
    · have hk := (JSMap.has_iff map k).mp hh
      cases hg : JSMap.get map k with
      | none => exact absurd hk ((JSMap.get_eq_none map k).mp hg)
      | some t =>
        by_cases h2 : k2 = k
        · subst h2; simp [hh, hg]
        · simp [hh, h2]
    · have hg : JSMap.get map k = none := by
        rw [JSMap.get_eq_none, ← JSMap.has_iff]; exact hh
      simp only [hh, if_false, Bool.false_eq_true]
      by_cases h2 : k2 = k
      · subst h2
        rw [JSMap.get_append_single map k2 k2 s hg]
        simp [hg]
      · simp only [h2, if_false]
        cases hg2 : JSMap.get map k2 with
        | none =>
          rw [JSMap.get_append_single map k k2 s hg2]
          have : ¬ k = k2 := fun h => h2 h.symm
          simp [this]
        | some t => exact JSMap.get_append_of_some map k k2 s t hg2
  unfold summaryStep
  cases b with
  | false =>
    simp only [Bool.false_eq_true, if_false, hbase]
    by_cases h : k1 = k <;> simp [h, Summary.addUnread]
  | true =>
    simp only [if_true, JSMap.get_modify, hbase]
    by_cases h : k1 = k <;> simp [h, Summary.addUnread]

theorem summaryLoop_nodup (db : Db) (u : ObjectId) (l : List Message) :
    ∀ map : JSMap Summary, (map.map Prod.fst).Nodup →
      ((summaryLoop db u map l).map Prod.fst).Nodup := by
  induction l with
  | nil => intro map h; exact h
  | cons m l ih =>
    intro map h
    apply ih
    rw [summaryStep_keys]
    by_cases hk : summaryKey u m ∈ map.map Prod.fst
    · simpa [hk] using h
    · simp only [hk, if_false]
      rw [List.nodup_append]
      refine ⟨h, List.nodup_singleton _, ?_⟩
      intro a ha hb
      rw [List.mem_singleton] at hb
      exact hk (hb ▸ ha)

theorem summaryLoop_mem_keys (db : Db) (u : ObjectId) (l : List Message) :
    ∀ (map : JSMap Summary) (k : JSString),
      k ∈ (summaryLoop db u map l).map Prod.fst ↔
        k ∈ map.map Prod.fst ∨ ∃ m ∈ l, summaryKey u m = k := by
  induction l with
  | nil => intro map k; simp [summaryLoop]
  | cons m l ih =>
    intro map k
    show k ∈ (summaryLoop db u (summaryStep map _ _ _) l).map Prod.fst ↔ _
    rw [ih, summaryStep_keys]
    by_cases hk : summaryKey u m ∈ map.map Prod.fst
    · simp only [hk, if_true, List.mem_cons, exists_eq_or_imp]
      constructor
      · rintro (h | h)
        · exact Or.inl h
        · exact Or.inr (Or.inr h)
      · rintro (h | h | h)
        · exact Or.inl h
        · exact Or.inl (h ▸ hk)
        · exact Or.inr h
    · simp only [hk, if_false, List.mem_append, List.mem_cons, List.not_mem_nil, or_false,
        exists_eq_or_imp]
      constructor
      · rintro ((h | h) | h)
        · exact Or.inl h
        · exact Or.inr (Or.inl h.symm)
        · exact Or.inr (Or.inr h)
      · rintro (h | h | h)
        · exact Or.inl (Or.inl h)
        · exact Or.inl (Or.inr h.symm)
        · exact Or.inr h

theorem addUnread_addUnread (a b : Nat) (s : Summary) :
    Summary.addUnread a (Summary.addUnread b s) = Summary.addUnread (b + a) s := by
  simp [Summary.addUnread, Nat.add_assoc]

theorem summaryLoop_get (db : Db) (u : ObjectId) (l : List Message) :
    ∀ (map : JSMap Summary) (k : JSString),
      JSMap.get (summaryLoop db u map l) k =
        match JSMap.get map k with
        | some t => some (Summary.addUnread (unreadIn u k l) t)
        | none => (l.find? (fun m => decide (summaryKey u m = k))).map
            (fun m => Summary.addUnread (unreadIn u k l) (summaryEntry db u m)) := by
  induction l with
  | nil =>
    intro map k
    cases hg : JSMap.get map k <;> simp [summaryLoop, hg, unreadIn, Summary.addUnread]
  | cons m l ih =>
    intro map k
    show JSMap.get (summaryLoop db u (summaryStep map _ _ _) l) k = _
    rw [ih, summaryStep_get]
    by_cases hk : k = summaryKey u m
    · subst hk
      simp only [if_true]
      cases hg : JSMap.get map (summaryKey u m) with
      | none =>
        simp only [Option.getD_none, List.find?_cons, decide_True, Option.map_some',
          addUnread_addUnread, unreadIn, List.countP_cons, Bool.true_and]
        congr 2
        cases unreadFlag u m <;> simp [Nat.add_comm]
      | some t =>
        simp only [Option.getD_some, addUnread_addUnread, unreadIn, List.countP_cons,
          decide_True, Bool.true_and]
        congr 2
        cases unreadFlag u m <;> simp [Nat.add_comm]
    · have hk2 : ¬ summaryKey u m = k := fun h => hk h.symm
      simp only [hk, if_false]
      cases hg : JSMap.get map k with
      | none =>
        simp [List.find?_cons, hk2, unreadIn, List.countP_cons]
      | some t =>
        simp [hk2, unreadIn, List.countP_cons]


theorem summaryStep_false (map : JSMap Summary) (k : JSString) (s : Summary) :
    summaryStep map k s false = if JSMap.has map k then map else map ++ [(k, s)] := by
  simp [summaryStep]

theorem conversationsStep_some (userId : JSString) (map : JSMap Summary)
    (pm : PopulatedMessage) (su ru ou : User)
    (hs : pm.sender = some su) (hr : pm.receiver = some ru)
    (hou : ou = if su._id.toString = userId then ru else su) :
    conversationsStep userId map pm =
      Except.ok (summaryStep map ou._id.toString
        { user := ou, lastMessage := pm, unreadCount := 0 }
        (decide (ru._id.toString = userId) && !pm.doc.isRead)) := by
  have hget : ∃ t, JSMap.get (summaryStep map ou._id.toString
      { user := ou, lastMessage := pm, unreadCount := 0 } false) ou._id.toString = some t := by
    rw [summaryStep_get]; simp
  obtain ⟨t, ht⟩ := hget
  rw [summaryStep_false] at ht
  have hset : (if (!JSMap.has map ou._id.toString) = true then
        JSMap.set map ou._id.toString { user := ou, lastMessage := pm, unreadCount := 0 }
      else map) =
      (if JSMap.has map ou._id.toString = true then map
        else map ++ [(ou._id.toString, { user := ou, lastMessage := pm, unreadCount := 0 })]) := by
    by_cases hh : JSMap.has map ou._id.toString = true
    · simp [hh]
    · simp [hh, JSMap.set]
  have hderef : (match (if su._id.toString = userId then some ru else some su) with
      | some u => Except.ok u
      | none => Except.error Thrown.typeError) = (Except.ok ou : Except Thrown User) := by
    by_cases hc : su._id.toString = userId <;> simp [hc, hou]
  unfold conversationsStep
  simp only [hs, hr, deref, bind, Except.bind, pure, Except.pure]
  rw [hderef]
  simp only [hset, ht]
  by_cases hflag : ru._id.toString = userId ∧ (!pm.doc.isRead) = true
  · have hb : (decide (ru._id.toString = userId) && !pm.doc.isRead) = true := by
      simp [hflag.1, hflag.2]
    unfold summaryStep
    rw [hb]
    simp only [hflag, and_self, if_true]
  · have hb : (decide (ru._id.toString = userId) && !pm.doc.isRead) = false := by
      rw [← Bool.not_eq_true]
      intro hcon
      apply hflag
      simpa using hcon
    unfold summaryStep
    rw [hb]
    simp only [hflag, if_false, Bool.false_eq_true]

theorem conversationsStep_resolved (db : Db) (u : ObjectId) (map : JSMap Summary) (m : Message)
    (h : Resolved db m) :
    conversationsStep u.toString map (populate db m) =
      Except.ok (summaryStep map (summaryKey u m) (summaryEntry db u m) (unreadFlag u m)) := by
  obtain ⟨hs, hr⟩ := h
  obtain ⟨su, hsu⟩ := Option.isSome_iff_exists.mp hs
  obtain ⟨ru, hru⟩ := Option.isSome_iff_exists.mp hr
  have hsid := findUser_id hsu
  have hrid := findUser_id hru
  have hou : otherUser db u m = if su._id.toString = u.toString then ru else su := by
    have hiff : su._id.toString = u.toString ↔ m.sender = u := by
      rw [hsid]; exact toString_inj
    unfold otherUser otherParticipant
    by_cases hc : m.sender = u
    · simp [hc, hru, hiff.mpr hc]
    · have hc2 : ¬ su._id.toString = u.toString := fun h => hc (hiff.mp h)
      simp [hc, hsu, hc2]
  have hkey : (otherUser db u m)._id.toString = summaryKey u m := by
    have hiff : su._id.toString = u.toString ↔ m.sender = u := by
      rw [hsid]; exact toString_inj
    rw [hou]
    unfold summaryKey otherParticipant
    by_cases hc : m.sender = u
    · rw [if_pos (hiff.mpr hc), hrid]
      simp [hc]
    · rw [if_neg (fun h => hc (hiff.mp h)), hsid]
      simp [hc]
  have hflag : (decide (ru._id.toString = u.toString) && !(populate db m).doc.isRead)
      = unreadFlag u m := by
    unfold unreadFlag
    rw [hrid]
    simp [populate, toString_inj]
  rw [conversationsStep_some u.toString map (populate db m) su ru (otherUser db u m)
    (by simp [populate, hsu]) (by simp [populate, hru]) hou, hkey, hflag]
  rfl

theorem conversationsStep_unresolved (db : Db) (u : ObjectId) (map : JSMap Summary) (m : Message)
    (h : ¬ Resolved db m) :
    conversationsStep u.toString map (populate db m) = Except.error Thrown.typeError := by
  unfold Resolved at h
  cases hsu : findUser db m.sender with
  | none => simp [conversationsStep, populate, hsu, deref, bind, Except.bind]
  | some su =>
    cases hru : findUser db m.receiver with
    | some ru => simp [hsu, hru] at h
    | none =>
      by_cases hc : su._id.toString = u.toString
      · simp [conversationsStep, populate, hsu, hru, deref, bind, Except.bind, hc]
      · simp [conversationsStep, populate, hsu, hru, deref, bind, Except.bind, hc]

theorem conversationsLoop_resolved (db : Db) (u : ObjectId) (l : List Message) :
    ∀ map : JSMap Summary, (∀ m ∈ l, Resolved db m) →
      conversationsLoop u.toString map (l.map (populate db)) =
        Except.ok (summaryLoop db u map l) := by
  induction l with
  | nil => intro map _; rfl
  | cons m l ih =>
    intro map h
    simp only [List.map_cons, conversationsLoop,
      conversationsStep_resolved db u map m (h m (List.mem_cons_self _ _))]
    exact ih _ (fun x hx => h x (List.mem_cons_of_mem _ hx))

theorem conversationsLoop_ok_resolved (db : Db) (u : ObjectId) (l : List Message) :
    ∀ map map1 : JSMap Summary,
      conversationsLoop u.toString map (l.map (populate db)) = Except.ok map1 →
      ∀ m ∈ l, Resolved db m := by
  induction l with
  | nil => intro _ _ _ m hm; simp at hm
  | cons x l ih =>
    intro map map1 h m hm
    by_cases hx : Resolved db x
    · simp only [List.map_cons, conversationsLoop, conversationsStep_resolved db u map x hx] at h
      rcases List.mem_cons.mp hm with rfl | hm
      · exact hx
      · exact ih _ _ h m hm
    · simp [List.map_cons, conversationsLoop, conversationsStep_unresolved db u map x hx] at h


theorem sortCreatedAtDesc_populate (db : Db) (l : List Message) :
    sortCreatedAtDesc (l.map (populate db)) =
      (l.insertionSort (fun a b => b.createdAt ≤ a.createdAt)).map (populate db) := by
  unfold sortCreatedAtDesc
  exact (List.map_insertionSort (fun a b : Message => b.createdAt ≤ a.createdAt)
    (fun a b : PopulatedMessage => b.doc.createdAt ≤ a.doc.createdAt) (populate db) l
    (fun a _ b _ => Iff.rfl)).symm

theorem conversationDocs_perm (db : Db) (u : ObjectId) :
    List.Perm (conversationDocs db u)
      (db.messages.filter (fun m => decide (m.sender = u ∨ m.receiver = u))) :=
  List.perm_insertionSort _ _

theorem mem_conversationDocs {db : Db} {u : ObjectId} {m : Message} :
    m ∈ conversationDocs db u ↔ m ∈ db.messages ∧ (m.sender = u ∨ m.receiver = u) := by
  rw [(conversationDocs_perm db u).mem_iff, List.mem_filter]
  simp

theorem conversationDocs_sorted (db : Db) (u : ObjectId) :
    List.Sorted (fun a b : Message => b.createdAt ≤ a.createdAt) (conversationDocs db u) := by
  haveI : IsTotal Message (fun a b => b.createdAt ≤ a.createdAt) :=
    ⟨fun a b => Nat.le_total _ _⟩
  haveI : IsTrans Message (fun a b => b.createdAt ≤ a.createdAt) :=
    ⟨fun a b c hab hbc => Nat.le_trans hbc hab⟩
  exact List.sorted_insertionSort _ _

theorem getAllConversations_eq (db : Db) (u : ObjectId) :
    getAllConversations db u =
      match conversationsLoop u.toString [] ((conversationDocs db u).map (populate db)) with
      | Except.ok conversationsMap =>
        { status := 200, success := true, message := none,
          count := some (JSMap.values conversationsMap).length,
          data := some (JSMap.values conversationsMap) }
      | Except.error e => serverError e := by
  unfold getAllConversations conversationDocs
  simp only [sortCreatedAtDesc_populate]

theorem getAllConversations_of_resolved (db : Db) (u : ObjectId)
    (h : ∀ m ∈ db.messages, (m.sender = u ∨ m.receiver = u) → Resolved db m) :
    getAllConversations db u =
      { status := 200, success := true, message := none,
        count := some (JSMap.values (summaryLoop db u [] (conversationDocs db u))).length,
        data := some (JSMap.values (summaryLoop db u [] (conversationDocs db u))) } := by
  rw [getAllConversations_eq, conversationsLoop_resolved db u _ []
    (fun m hm => h m (mem_conversationDocs.mp hm).1 (mem_conversationDocs.mp hm).2)]

theorem mem_data_getAllConversations (db : Db) (u : ObjectId) (s : Summary)
    (hs : s ∈ (getAllConversations db u).data.getD []) :
    s ∈ JSMap.values (summaryLoop db u [] (conversationDocs db u)) := by
  rw [getAllConversations_eq] at hs
  cases hloop : conversationsLoop u.toString [] ((conversationDocs db u).map (populate db)) with
  | error e => simp [hloop, serverError] at hs
  | ok map =>
    have hres := conversationsLoop_ok_resolved db u _ [] map hloop
    rw [conversationsLoop_resolved db u _ [] hres] at hloop
    injection hloop with hmap
    subst hmap
    simpa [conversationsLoop_resolved db u _ [] hres] using hs

theorem mem_summaryLoop_values (db : Db) (u : ObjectId) (l : List Message) (s : Summary)
    (hs : s ∈ JSMap.values (summaryLoop db u [] l)) :
    ∃ m, l.find? (fun x => decide (summaryKey u x = summaryKey u m)) = some m ∧
      s = Summary.addUnread (unreadIn u (summaryKey u m) l) (summaryEntry db u m) := by
  unfold JSMap.values at hs
  obtain ⟨⟨k, s1⟩, hmem, hs1⟩ := List.mem_map.mp hs
  simp only at hs1
  subst hs1
  have hnd := summaryLoop_nodup db u l [] (by simp)
  have hget := JSMap.get_of_mem _ k s1 hnd hmem
  rw [summaryLoop_get, JSMap.get_nil] at hget
  simp only [Option.map_eq_some'] at hget
  obtain ⟨m, hfind, hm⟩ := hget
  have hk : summaryKey u m = k := by
    have := List.find?_some hfind
    simpa using this
  subst hk
  exact ⟨m, hfind, hm.symm⟩

theorem otherUser_id (db : Db) (u : ObjectId) (m : Message) :
    (otherUser db u m)._id = otherParticipant u m := by
  unfold otherUser
  cases h : findUser db (otherParticipant u m) with
  | none => rfl
  | some x => exact findUser_id h

theorem between_iff (u v : ObjectId) (m : Message) :
    Between u v m ↔ (m.sender = u ∨ m.receiver = u) ∧ otherParticipant u m = v := by
  unfold Between otherParticipant
  by_cases hs : m.sender = u
  · rw [if_pos hs]
    constructor
    · rintro (⟨_, h⟩ | ⟨h1, h2⟩)
      · exact ⟨Or.inl hs, h⟩
      · exact ⟨Or.inl hs, by rw [h2, ← hs, h1]⟩
    · rintro ⟨_, h⟩
      exact Or.inl ⟨hs, h⟩
  · rw [if_neg hs]
    constructor
    · rintro (⟨h, _⟩ | ⟨h1, h2⟩)
      · exact absurd h hs
      · exact ⟨Or.inr h2, h1⟩
    · rintro ⟨h1 | h1, h2⟩
      · exact absurd h1 hs
      · exact Or.inr ⟨h2, h1⟩

theorem find?_sorted_first {α : Type} (R : α → α → Prop) (p : α → Bool) :
    ∀ (l : List α) (a : α), l.Pairwise R → l.find? p = some a →
      ∀ b ∈ l, p b = true → b = a ∨ R a b := by
  intro l
  induction l with
  | nil => intro a _ h; simp at h
  | cons x l ih =>
    intro a hpw hfind b hb hpb
    rw [List.pairwise_cons] at hpw
    by_cases hx : p x = true
    · rw [List.find?_cons_of_pos _ hx] at hfind
      injection hfind with hxa
      subst hxa
      rcases List.mem_cons.mp hb with h | h
      · exact Or.inl h
      · exact Or.inr (hpw.1 b h)
    · rw [List.find?_cons_of_neg _ hx] at hfind
      rcases List.mem_cons.mp hb with h | h
      · subst h; exact absurd hpb hx
      · exact ih a hpw.2 hfind b h hpb


theorem summaryLoop_wellKeyed (db : Db) (u : ObjectId) (l : List Message)
    (e : JSString × Summary) (he : e ∈ summaryLoop db u [] l) :
    e.2.user._id.toString = e.1 := by
  obtain ⟨k, s⟩ := e
  have hnd := summaryLoop_nodup db u l [] (by simp)
  have hget := JSMap.get_of_mem _ k s hnd he
  rw [summaryLoop_get, JSMap.get_nil] at hget
  simp only [Option.map_eq_some'] at hget
  obtain ⟨m, hfind, hm⟩ := hget
  have hk : summaryKey u m = k := by
    have := List.find?_some hfind
    simpa using this
  subst hm
  show (otherUser db u m)._id.toString = k
  rw [otherUser_id, ← hk]
  rfl

/-- On a database in which the sender and the receiver of every message of `u`
resolve to user documents, `getAllConversations u` answers 200 with one summary
for each other participant `u` exchanged a message with, and no other. -/
theorem getAllConversations_partners (db : Db) (u : ObjectId)
    (h : ∀ m ∈ db.messages, (m.sender = u ∨ m.receiver = u) → Resolved db m) :
    ∃ summaries : List Summary,
      getAllConversations db u =
        { status := 200, success := true, message := none, count := some summaries.length,
          data := some summaries } ∧
      (summaries.map (fun s => s.user._id)).Nodup ∧
      ∀ v, v ∈ summaries.map (fun s => s.user._id) ↔ ∃ m ∈ db.messages, Between u v m := by
  refine ⟨_, getAllConversations_of_resolved db u h, ?_, ?_⟩
  · have hnd := summaryLoop_nodup db u (conversationDocs db u) [] (by simp)
    have hkeys : (JSMap.values (summaryLoop db u [] (conversationDocs db u))).map
        (fun s => s.user._id.toString) =
        (summaryLoop db u [] (conversationDocs db u)).map Prod.fst := by
      unfold JSMap.values
      rw [List.map_map]
      apply List.map_congr_left
      intro e he
      exact summaryLoop_wellKeyed db u _ e he
    rw [← hkeys] at hnd
    have : (JSMap.values (summaryLoop db u [] (conversationDocs db u))).map
        (fun s => s.user._id.toString) =
        ((JSMap.values (summaryLoop db u [] (conversationDocs db u))).map
          (fun s => s.user._id)).map ObjectId.toString := by
      rw [List.map_map]; rfl
    rw [this] at hnd
    exact List.Nodup.of_map _ hnd
  · intro v
    have hkeys := summaryLoop_mem_keys db u (conversationDocs db u) [] v.toString
    simp only [List.map_nil, List.not_mem_nil, false_or] at hkeys
    constructor
    · intro hv
      obtain ⟨s, hs, hsv⟩ := List.mem_map.mp hv
      obtain ⟨e, he, hes⟩ := List.mem_map.mp hs
      have hwk := summaryLoop_wellKeyed db u _ e he
      have hmem : v.toString ∈ (summaryLoop db u [] (conversationDocs db u)).map Prod.fst := by
        rw [← hsv, ← hes, hwk]
        exact List.mem_map.mpr ⟨e, he, rfl⟩
      obtain ⟨m, hm, hkey⟩ := hkeys.mp hmem
      have hmem2 := mem_conversationDocs.mp hm
      exact ⟨m, hmem2.1, (between_iff u v m).mpr ⟨hmem2.2, toString_inj.mp hkey⟩⟩
    · rintro ⟨m, hm, hb⟩
      obtain ⟨hinv, hother⟩ := (between_iff u v m).mp hb
      have hmem := hkeys.mpr ⟨m, mem_conversationDocs.mpr ⟨hm, hinv⟩, by
        unfold summaryKey; rw [hother]⟩
      obtain ⟨e, he, hek⟩ := List.mem_map.mp hmem
      have hwk := summaryLoop_wellKeyed db u _ e he
      refine List.mem_map.mpr ⟨e.2, List.mem_map.mpr ⟨e, he, rfl⟩, ?_⟩
      exact toString_inj.mp (hwk.trans hek)


theorem summary_of_mem (db : Db) (u : ObjectId) (s : Summary)
    (hs : s ∈ (getAllConversations db u).data.getD []) :
    ∃ m, m ∈ db.messages ∧ (m.sender = u ∨ m.receiver = u) ∧
      (conversationDocs db u).find? (fun x => decide (summaryKey u x = summaryKey u m)) = some m ∧
      s.user._id = otherParticipant u m ∧ s.lastMessage = populate db m ∧
      s.unreadCount = unreadIn u (summaryKey u m) (conversationDocs db u) := by
  obtain ⟨m, hfind, hs⟩ := mem_summaryLoop_values db u _ s (mem_data_getAllConversations db u s hs)
  have hmem := mem_conversationDocs.mp (List.mem_of_find?_eq_some hfind)
  subst hs
  exact ⟨m, hmem.1, hmem.2, hfind, otherUser_id db u m, rfl, by simp [Summary.addUnread, summaryEntry]⟩

theorem summaryKey_eq_iff (u : ObjectId) (a b : Message) :
    summaryKey u a = summaryKey u b ↔ otherParticipant u a = otherParticipant u b := by
  unfold summaryKey
  exact toString_inj

/-! ## Facts about `markMessagesAsRead` -/

theorem markMessagesAsRead_messages (db : Db) (now : Nat) (u : ObjectId) (v : JSString) :
    (markMessagesAsRead db now u v).2.messages = db.messages.map (fun m =>
      if m.conversationId = getConversationId u.toString v ∧ m.receiver = u ∧ m.isRead = false then
        { m with isRead := true, updatedAt := now }
      else m) := rfl

theorem markMessagesAsRead_read (db : Db) (now : Nat) (u : ObjectId) (v : JSString)
    (m : Message) (hm : m ∈ (markMessagesAsRead db now u v).2.messages)
    (hc : m.conversationId = getConversationId u.toString v) (hr : m.receiver = u) :
    m.isRead = true := by
  rw [markMessagesAsRead_messages, List.mem_map] at hm
  obtain ⟨m0, _, hm0⟩ := hm
  by_cases hmatch : m0.conversationId = getConversationId u.toString v ∧ m0.receiver = u ∧
      m0.isRead = false
  · rw [if_pos hmatch] at hm0
    rw [← hm0]
  · rw [if_neg hmatch] at hm0
    subst hm0
    cases hread : m0.isRead with
    | true => rfl
    | false => exact absurd ⟨hc, hr, hread⟩ hmatch

theorem markMessagesAsRead_of_none (db : Db) (now : Nat) (u : ObjectId) (v : JSString)
    (h : ∀ m ∈ db.messages, m.conversationId = getConversationId u.toString v → m.receiver = u →
      m.isRead = true) :
    (markMessagesAsRead db now u v).2 = db := by
  have hmsgs : (markMessagesAsRead db now u v).2.messages = db.messages := by
    rw [markMessagesAsRead_messages]
    conv_rhs => rw [← List.map_id db.messages]
    apply List.map_congr_left
    intro m hm
    have hno : ¬ (m.conversationId = getConversationId u.toString v ∧ m.receiver = u ∧
        m.isRead = false) := by
      rintro ⟨hc, hr, hread⟩
      rw [h m hm hc hr] at hread
      cases hread
    rw [if_neg hno]
    rfl
  have husers : (markMessagesAsRead db now u v).2.users = db.users := rfl
  cases db
  simp only at hmsgs husers
  cases hres : (markMessagesAsRead _ now u v).2
  rw [hres] at hmsgs husers
  simp only at hmsgs husers
  rw [hmsgs, husers]

/-! ## Facts about the presence directory -/

theorem JSMap.get_set_self {β : Type} (m : JSMap β) (k : JSString) (v : β) :
    JSMap.get (JSMap.set m k v) k = some v := by
  unfold JSMap.set
  by_cases hh : JSMap.has m k = true
  · rw [if_pos hh]
    have hk := (JSMap.has_iff m k).mp hh
    clear hh
    induction m with
    | nil => simp at hk
    | cons e m ih =>
      rw [List.map_cons, JSMap.get_cons]
      by_cases he : e.1 = k
      · simp [he]
      · rw [if_neg he]
        simp only [he, if_false]
        apply ih
        rw [List.map_cons, List.mem_cons] at hk
        rcases hk with hk | hk
        · exact absurd hk.symm he
        · exact hk
  · rw [if_neg hh]
    have hnone : JSMap.get m k = none := by
      rw [JSMap.get_eq_none, ← JSMap.has_iff]; exact hh
    rw [JSMap.get_append_single m k k v hnone]
    simp

theorem JSMap.get_delete_self {β : Type} (m : JSMap β) (k : JSString) :
    JSMap.get (JSMap.delete m k) k = none := by
  rw [JSMap.get_eq_none]
  unfold JSMap.delete
  intro hk
  obtain ⟨e, he, hek⟩ := List.mem_map.mp hk
  have := (List.mem_filter.mp he).2
  simp [hek] at this

theorem JSMap.get_delete_of_ne {β : Type} (m : JSMap β) (k k1 : JSString) (h : k1 ≠ k) :
    JSMap.get (JSMap.delete m k) k1 = JSMap.get m k1 := by
  induction m with
  | nil => rfl
  | cons e m ih =>
    unfold JSMap.delete at ih ⊢
    rw [List.filter_cons]
    by_cases he : e.1 = k
    · have hne : ¬ e.1 = k1 := fun h1 => h (h1.symm.trans he)
      simp only [he, decide_True, Bool.not_true, Bool.false_eq_true, if_false]
      rw [ih, JSMap.get_cons, if_neg hne]
    · simp only [he, decide_False, Bool.not_false, if_true]
      rw [JSMap.get_cons, JSMap.get_cons, ih]

theorem JSMap.mem_of_get {β : Type} (m : JSMap β) (k : JSString) (s : β)
    (h : JSMap.get m k = some s) : (k, s) ∈ m := by
  induction m with
  | nil => simp [JSMap.get_nil] at h
  | cons e m ih =>
    rw [JSMap.get_cons] at h
    by_cases he : e.1 = k
    · simp only [he, if_true, Option.some.injEq] at h
      obtain ⟨e1, e2⟩ := e
      simp only at he h
      subst he; subst h
      exact List.mem_cons_self _ _
    · simp only [he, if_false] at h
      exact List.mem_cons_of_mem _ (ih h)

/-! ## Facts about `handleSendMessage` -/

theorem tempIdOf_ne_objectId (now : Nat) (s : JSString)
    (h : (castObjectId s).isSome = true) : s ≠ tempIdOf now := by
  intro hs
  subst hs
  simp [castObjectId, tempIdOf, isHexDigit] at h

theorem map_replace_of_fresh (l : List ClientMessage) (t : JSString) (saved : ClientMessage)
    (h : ∀ m ∈ l, m._id ≠ t) :
    l.map (fun msg : ClientMessage => if msg._id = t then saved else msg) = l := by
  conv_rhs => rw [← List.map_id l]
  apply List.map_congr_left
  intro m hm
  rw [if_neg (h m hm)]
  rfl

/-! ## Facts about the typing debounce -/

theorem runDueTimers_not_due (s : TypingSession) (t : Nat)
    (h : ∀ timer, s.typingTimeout = some timer → t < timer.due) :
    runDueTimers s t = (s, []) := by
  unfold runDueTimers
  cases hto : s.typingTimeout with
  | none => rfl
  | some timer =>
    have := h timer hto
    simp only [Nat.not_le.mpr this, if_false]

theorem runDueTimers_due (s : TypingSession) (t : Nat) (timer : TypingTimer)
    (hto : s.typingTimeout = some timer) (hdue : timer.due ≤ t) (hconn : s.chat.connected = true) :
    (runDueTimers s t).2 =
      [(timer.due, TypingEffect.emitTypingStop timer.receiverId timer.senderId)] := by
  unfold runDueTimers
  simp [hto, hdue, typingTimeoutFires, socketStopTyping, hconn]

theorem handleTyping_selected (s : TypingSession) (t : Nat) (selectedUser : ClientUser)
    (hsel : s.chat.selectedUser = some selectedUser) (hconn : s.chat.connected = true) :
    handleTyping s t =
      (TypingSession.mk s.chat (some (TypingTimer.mk (t + 2000) selectedUser._id s.chat.user._id)),
        [TypingEffect.emitTypingStart selectedUser._id s.chat.user._id]) := by
  simp [handleTyping, hsel, hconn, socketStartTyping]

theorem typingRun_burst (selectedUser : ClientUser) (horizon : Nat) (keystrokes : List Nat) :
    ∀ (t : Nat) (s : TypingSession),
      s.chat.selectedUser = some selectedUser → s.chat.connected = true →
      (∀ timer, s.typingTimeout = some timer → t < timer.due) →
      List.Chain (fun a b => a ≤ b ∧ b < a + 2000) t keystrokes →
      (t :: keystrokes).getLast (List.cons_ne_nil _ _) + 2000 ≤ horizon →
      typingRun s (t :: keystrokes) horizon =
        (t :: keystrokes).map (fun k =>
          (k, TypingEffect.emitTypingStart selectedUser._id s.chat.user._id)) ++
        [((t :: keystrokes).getLast (List.cons_ne_nil _ _) + 2000,
          TypingEffect.emitTypingStop selectedUser._id s.chat.user._id)] := by
  induction keystrokes with
  | nil =>
    intro t s hsel hconn htimer _ hhor
    simp only [List.getLast_singleton] at hhor
    have hstop := runDueTimers_due
      (TypingSession.mk s.chat (some (TypingTimer.mk (t + 2000) selectedUser._id s.chat.user._id)))
      horizon (TypingTimer.mk (t + 2000) selectedUser._id s.chat.user._id) rfl hhor hconn
    rw [typingRun, runDueTimers_not_due s t htimer, handleTyping_selected s t selectedUser hsel hconn,
      typingRun]
    simp only [hstop]
    simp
  | cons t2 rest ih =>
    intro t s hsel hconn htimer hchain hhor
    rw [List.chain_cons] at hchain
    obtain ⟨⟨_, hlt⟩, hchain2⟩ := hchain
    have hlast : (t :: t2 :: rest).getLast (List.cons_ne_nil _ _) =
        (t2 :: rest).getLast (List.cons_ne_nil _ _) := List.getLast_cons (List.cons_ne_nil _ _)
    rw [hlast] at hhor ⊢
    have hrec := ih t2
      (TypingSession.mk s.chat (some (TypingTimer.mk (t + 2000) selectedUser._id s.chat.user._id)))
      hsel hconn (by
        intro timer htm
        simp only [Option.some.injEq] at htm
        rw [← htm]
        exact hlt) hchain2 hhor
    rw [typingRun, runDueTimers_not_due s t htimer, handleTyping_selected s t selectedUser hsel hconn]
    simp only [List.nil_append, List.map_cons, List.map_nil, List.singleton_append]
    rw [hrec]
    simp

/-! ## Facts about the shape of conversation identifiers -/

theorem append_sep_inj_left (sep : Nat) :
    ∀ (x x1 y y1 : JSString), sep ∉ x → sep ∉ x1 → x ++ sep :: y = x1 ++ sep :: y1 →
      x = x1 ∧ y = y1
  | [], [], y, y1, _, _, h => by
    simp only [List.nil_append, List.cons.injEq, true_and] at h
    exact ⟨rfl, h⟩
  | [], c :: x1, y, y1, _, h1, h => by
    simp only [List.nil_append, List.cons_append, List.cons.injEq] at h
    exact absurd (h.1 ▸ List.mem_cons_self _ _) h1
  | c :: x, [], y, y1, h0, _, h => by
    simp only [List.nil_append, List.cons_append, List.cons.injEq] at h
    exact absurd (h.1 ▸ List.mem_cons_self _ _) h0
  | c :: x, c1 :: x1, y, y1, h0, h1, h => by
    simp only [List.cons_append, List.cons.injEq] at h
    have := append_sep_inj_left sep x x1 y y1
      (fun hm => h0 (List.mem_cons_of_mem _ hm)) (fun hm => h1 (List.mem_cons_of_mem _ hm)) h.2
    exact ⟨by rw [h.1, this.1], this.2⟩

theorem append_sep_inj_right (sep : Nat) (x x1 y y1 : JSString) (hy : sep ∉ y) (hy1 : sep ∉ y1)
    (h : x ++ sep :: y = x1 ++ sep :: y1) : x = x1 ∧ y = y1 := by
  have hrev : y.reverse ++ sep :: x.reverse = y1.reverse ++ sep :: x1.reverse := by
    have := congrArg List.reverse h
    simpa using this
  have := append_sep_inj_left sep y.reverse y1.reverse x.reverse x1.reverse
    (by simpa using hy) (by simpa using hy1) hrev
  exact ⟨List.reverse_injective this.2, List.reverse_injective this.1⟩

theorem getConversationId_cases (a b : JSString) :
    getConversationId a b = a ++ dash :: b ∨ getConversationId a b = b ++ dash :: a := by
  rw [getConversationId_eq]
  by_cases h : jsLt b a = true
  · right; simp [h]
  · left; simp [h]

/-! ## Facts about the order of the summaries -/

theorem JSMap.map_modify_of_invariant {β γ : Type} (m : JSMap β) (k : JSString) (f : β → β)
    (g : β → γ) (hg : ∀ x, g (f x) = g x) :
    (JSMap.modify m k f).map (fun e => g e.2) = m.map (fun e => g e.2) := by
  unfold JSMap.modify
  rw [List.map_map]
  apply List.map_congr_left
  intro e _
  by_cases h : e.1 = k
  · simp [h, hg]
  · simp [h]

theorem summaryStep_times (map : JSMap Summary) (k : JSString) (s : Summary) (b : Bool) :
    (summaryStep map k s b).map (fun e => e.2.lastMessage.doc.createdAt) =
      if k ∈ map.map Prod.fst then map.map (fun e => e.2.lastMessage.doc.createdAt)
      else map.map (fun e => e.2.lastMessage.doc.createdAt) ++ [s.lastMessage.doc.createdAt] := by
  have hmod : ∀ m : JSMap Summary,
      (JSMap.modify m k (fun s => { s with unreadCount := s.unreadCount + 1 })).map
        (fun e => e.2.lastMessage.doc.createdAt) = m.map (fun e => e.2.lastMessage.doc.createdAt) :=
    fun m => JSMap.map_modify_of_invariant m k _ (fun x => x.lastMessage.doc.createdAt)
      (fun _ => rfl)
  unfold summaryStep
  by_cases hk : k ∈ map.map Prod.fst
  · have hh : JSMap.has map k = true := (JSMap.has_iff map k).mpr hk
    cases b <;> simp only [hh, hk, if_true, hmod, Bool.false_eq_true, if_false]
  · have hh : JSMap.has map k = false := by
      rw [← Bool.not_eq_true, JSMap.has_iff]; exact hk
    cases b <;>
      simp only [hh, hk, if_true, hmod, Bool.false_eq_true, if_false, List.map_append,
        List.map_cons, List.map_nil]

theorem summaryLoop_times_sorted (db : Db) (u : ObjectId) (l : List Message) :
    ∀ map : JSMap Summary,
      l.Pairwise (fun a b => b.createdAt ≤ a.createdAt) →
      (map.map (fun e => e.2.lastMessage.doc.createdAt)).Pairwise (fun a b => b ≤ a) →
      (∀ a ∈ map.map (fun e => e.2.lastMessage.doc.createdAt), ∀ x ∈ l, x.createdAt ≤ a) →
      ((summaryLoop db u map l).map (fun e => e.2.lastMessage.doc.createdAt)).Pairwise
        (fun a b => b ≤ a) := by
  induction l with
  | nil => intro map _ h _; exact h
  | cons m l ih =>
    intro map hl hmap hbound
    rw [List.pairwise_cons] at hl
    show ((summaryLoop db u (summaryStep map _ _ _) l).map _).Pairwise _
    apply ih _ hl.2
    · rw [summaryStep_times]
      by_cases hk : summaryKey u m ∈ map.map Prod.fst
      · rw [if_pos hk]; exact hmap
      · rw [if_neg hk, List.pairwise_append]
        refine ⟨hmap, List.pairwise_singleton _ _, ?_⟩
        intro a ha b hb
        rw [List.mem_singleton] at hb
        subst hb
        exact hbound a ha m (List.mem_cons_self _ _)
    · intro a ha x hx
      rw [summaryStep_times] at ha
      by_cases hk : summaryKey u m ∈ map.map Prod.fst
      · rw [if_pos hk] at ha
        exact hbound a ha x (List.mem_cons_of_mem _ hx)
      · rw [if_neg hk, List.mem_append, List.mem_singleton] at ha
        rcases ha with ha | ha
        · exact hbound a ha x (List.mem_cons_of_mem _ hx)
        · rw [ha]
          exact hl.1 x hx

theorem getAllConversations_data (db : Db) (u : ObjectId) :
    (getAllConversations db u).data.getD [] = [] ∨
    (getAllConversations db u).data.getD [] =
      JSMap.values (summaryLoop db u [] (conversationDocs db u)) := by
  rw [getAllConversations_eq]
  cases hloop : conversationsLoop u.toString [] ((conversationDocs db u).map (populate db)) with
  | error e => left; simp [serverError]
  | ok map =>
    right
    have hres := conversationsLoop_ok_resolved db u _ [] map hloop
    rw [conversationsLoop_resolved db u _ [] hres] at hloop
    injection hloop with hmap
    subst hmap
    simp

theorem summaryLoop_values_nodup (db : Db) (u : ObjectId) (l : List Message) :
    ((JSMap.values (summaryLoop db u [] l)).map (fun s => s.user._id.toString)).Nodup := by
  have hnd := summaryLoop_nodup db u l [] (by simp)
  have hkeys : (JSMap.values (summaryLoop db u [] l)).map (fun s => s.user._id.toString) =
      (summaryLoop db u [] l).map Prod.fst := by
    unfold JSMap.values
    rw [List.map_map]
    apply List.map_congr_left
    intro e he
    exact summaryLoop_wellKeyed db u _ e he
  rw [hkeys]
  exact hnd

/-! ## Facts about the client's conversation list -/

theorem getAllConversations_nodup (db : Db) (u : ObjectId) :
    (((getAllConversations db u).data.getD []).map (fun s => s.user._id.toString)).Nodup := by
  rcases getAllConversations_data db u with h | h
  · rw [h]; exact List.nodup_nil
  · rw [h]; exact summaryLoop_values_nodup db u _

theorem split_at_index {α : Type} :
    ∀ (l : List α) (i : Nat) (x : α), l.get? i = some x →
      ∃ A B, l = A ++ x :: B ∧ l.eraseIdx i = A ++ B
  | [], i, x, h => by simp at h
  | a :: l, 0, x, h => by
    simp only [List.get?_cons_zero, Option.some.injEq] at h
    subst h
    exact ⟨[], l, rfl, rfl⟩
  | a :: l, i + 1, x, h => by
    simp only [List.get?_cons_succ] at h
    obtain ⟨A, B, hl, he⟩ := split_at_index l i x h
    exact ⟨a :: A, B, by rw [hl]; rfl, by rw [List.eraseIdx_cons_succ, he]; rfl⟩

theorem updateConversation_cases (userId : JSString) (message : ClientMessage)
    (prev : List Conversation) :
    updateConversationWithNewMessage userId message prev = prev ∨
    ∃ A B conv, prev = A ++ conv :: B ∧
      updateConversationWithNewMessage userId message prev =
        { conv with lastMessage := some message } :: (A ++ B) := by
  unfold updateConversationWithNewMessage
  simp only []
  split
  · rename_i i _
    cases hget : prev.get? i with
    | none => left; rfl
    | some conv =>
      right
      obtain ⟨A, B, hl, he⟩ := split_at_index prev i conv hget
      exact ⟨A, B, conv, hl, by simp only [he]⟩
  · left; rfl

theorem updateConversation_recencySorted (userId : JSString) (message : ClientMessage)
    (prev : List Conversation)
    (hnewer : ∀ c ∈ prev, ∀ m, c.lastMessage = some m → m.createdAt ≤ message.createdAt)
    (h : RecencySorted prev) :
    RecencySorted (updateConversationWithNewMessage userId message prev) := by
  rcases updateConversation_cases userId message prev with heq | ⟨A, B, conv, hprev, heq⟩
  · rw [heq]; exact h
  · rw [heq]
    unfold RecencySorted at h ⊢
    rw [List.filterMap_cons_some (by rfl : (fun c : Conversation => c.lastMessage)
      { conv with lastMessage := some message } = some message), List.pairwise_cons]
    constructor
    · intro m hm
      rw [List.mem_filterMap] at hm
      obtain ⟨c, hc, hcm⟩ := hm
      have hcprev : c ∈ prev := by
        rw [hprev]
        rcases List.mem_append.mp hc with hA | hB
        · exact List.mem_append_left _ hA
        · exact List.mem_append_right _ (List.mem_cons_of_mem _ hB)
      exact hnewer c hcprev m hcm
    · rw [hprev] at h
      have hsub : List.Sublist (A ++ B) (A ++ conv :: B) :=
        List.Sublist.append_left (List.sublist_cons_self conv B) A
      exact h.sublist (hsub.filterMap _)

theorem updateConversation_distinct (userId : JSString) (message : ClientMessage)
    (prev : List Conversation) (h : DistinctCounterparts prev) :
    DistinctCounterparts (updateConversationWithNewMessage userId message prev) := by
  rcases updateConversation_cases userId message prev with heq | ⟨A, B, conv, hprev, heq⟩
  · rw [heq]; exact h
  · rw [heq]
    unfold DistinctCounterparts at h ⊢
    rw [hprev] at h
    have hperm : List.Perm (List.map (fun c : Conversation => c.user._id) (A ++ conv :: B))
        (List.map (fun c : Conversation => c.user._id)
          ({ conv with lastMessage := some message } :: (A ++ B))) := by
      have hmid : List.Perm (A ++ conv :: B) (conv :: (A ++ B)) := List.perm_middle
      have := hmid.map (fun c : Conversation => c.user._id)
      simp only [List.map_cons] at this ⊢
      exact this
    exact hperm.nodup_iff.mp h

theorem disconnect_clears_of_unique (μ : Type) (activeUsers : JSMap SocketId) (c : SocketId)
    (h : ∀ e1 ∈ activeUsers, ∀ e2 ∈ activeUsers, e1.2 = c → e2.2 = c → e1.1 = e2.1) :
    ∀ e ∈ (disconnect μ activeUsers c).1, e.2 ≠ c := by
  intro e he hec
  unfold disconnect at he
  cases hf : activeUsers.find? (fun e => decide (e.2 = c)) with
  | none =>
    rw [hf] at he
    rw [List.find?_eq_none] at hf
    have := hf e he
    simp [hec] at this
  | some e1 =>
    rw [hf] at he
    obtain ⟨k1, v1⟩ := e1
    have hv : v1 = c := by
      have := List.find?_some hf
      simpa using this
    have hmem1 := List.mem_of_find?_eq_some hf
    simp only [JSMap.delete, List.mem_filter] at he
    obtain ⟨hmem, hne⟩ := he
    have := h e hmem (k1, v1) hmem1 hec hv
    simp [this] at hne

/-! ## Facts shared by several properties -/

/-- The answer of `getConversation`: the stored messages of the conversation,
populated, in ascending order of creation time. -/
theorem getConversation_result (db : Db) (u : ObjectId) (v : JSString) :
    ∃ msgs : List PopulatedMessage,
      getConversation db u v =
        { status := 200, success := true, message := none, count := some msgs.length,
          data := some msgs } ∧
      List.Perm msgs ((db.messages.filter
        (fun m => decide (m.conversationId = getConversationId u.toString v))).map (populate db)) ∧
      List.Sorted (fun a b : PopulatedMessage => a.doc.createdAt ≤ b.doc.createdAt) msgs ∧
      (msgs = [] ↔ db.messages.filter
        (fun m => decide (m.conversationId = getConversationId u.toString v)) = []) := by
  haveI : IsTotal PopulatedMessage (fun a b => a.doc.createdAt ≤ b.doc.createdAt) :=
    ⟨fun a b => Nat.le_total _ _⟩
  haveI : IsTrans PopulatedMessage (fun a b => a.doc.createdAt ≤ b.doc.createdAt) :=
    ⟨fun a b c hab hbc => Nat.le_trans hab hbc⟩
  refine ⟨sortCreatedAtAsc ((db.messages.filter
    (fun m : Message => decide (m.conversationId = getConversationId u.toString v))).map (populate db)),
    rfl, List.perm_insertionSort _ _, List.sorted_insertionSort _ _, ?_⟩
  constructor
  · intro h
    have hperm := List.perm_insertionSort (fun a b : PopulatedMessage => a.doc.createdAt ≤ b.doc.createdAt)
      ((db.messages.filter
        (fun m => decide (m.conversationId = getConversationId u.toString v))).map (populate db))
    unfold sortCreatedAtAsc at h
    rw [h] at hperm
    have := hperm.symm.eq_nil
    simpa using this
  · intro h
    simp [h, sortCreatedAtAsc]

/-- The `unreadCount` of a returned summary counts the unread messages its
participant has sent to the user. -/
theorem summary_unreadCount (db : Db) (u : ObjectId) (s : Summary)
    (hs : s ∈ (getAllConversations db u).data.getD []) :
    s.unreadCount = (db.messages.filter (fun m =>
      decide (m.sender = s.user._id ∧ m.receiver = u ∧ m.isRead = false))).length := by
  obtain ⟨m0, _, _, _, huser, _, hcount⟩ := summary_of_mem db u s hs
  rw [hcount, huser, unreadIn, (conversationDocs_perm db u).countP_eq,
    List.countP_eq_length_filter, List.filter_filter]
  congr 1
  apply List.filter_congr
  intro m _
  have hb := between_iff u (otherParticipant u m0) m
  unfold Between at hb
  rw [Bool.eq_iff_iff]
  simp only [Bool.and_eq_true, decide_eq_true_eq, unreadFlag, summaryKey_eq_iff,
    Bool.not_eq_true', Bool.not_eq_true]
  constructor
  · rintro ⟨⟨hother, hrecv, hread⟩, hinv⟩
    have := hb.mpr ⟨hinv, hother⟩
    rcases this with ⟨h1, h2⟩ | ⟨h1, _⟩
    · exact ⟨h1.trans (hrecv.symm.trans h2), hrecv, hread⟩
    · exact ⟨h1, hrecv, hread⟩
  · rintro ⟨hsender, hrecv, hread⟩
    have := hb.mp (Or.inr ⟨hsender, hrecv⟩)
    exact ⟨⟨this.2, hrecv, hread⟩, this.1⟩

/-- The returned summaries are in descending order of the creation time of their
last message. -/
theorem getAllConversations_recency (db : Db) (u : ObjectId) :
    List.Pairwise
      (fun a b : Summary => b.lastMessage.doc.createdAt ≤ a.lastMessage.doc.createdAt)
      ((getAllConversations db u).data.getD []) := by
  rcases getAllConversations_data db u with h | h
  · rw [h]; exact List.Pairwise.nil
  · rw [h]
    have hsorted := summaryLoop_times_sorted db u (conversationDocs db u) []
      (conversationDocs_sorted db u) List.Pairwise.nil (by simp)
    unfold JSMap.values
    rw [List.pairwise_map] at hsorted ⊢
    exact hsorted

/-- After `markMessagesAsRead u v`, no stored message whose
`conversationId` is `getConversationId u v` and whose receiver is `u` has
`isRead = false`; and in a database where the `conversationId` of every message is
`getConversationId sender receiver`, the `unreadCount` that `getAllConversations u`
then reports for the participant `v` is zero. -/
theorem markMessagesAsRead_unread_zero (db : Db) (now : Nat) (u : ObjectId) (v : JSString)
    (hcons : ∀ m ∈ db.messages,
      m.conversationId = getConversationId m.sender.toString m.receiver.toString) :
    (∀ m ∈ (markMessagesAsRead db now u v).2.messages,
      m.conversationId = getConversationId u.toString v → m.receiver = u → m.isRead = true) ∧
    (∀ s ∈ (getAllConversations (markMessagesAsRead db now u v).2 u).data.getD [],
      s.user._id.toString = v → s.unreadCount = 0) := by
  refine ⟨fun m hm hc hr => markMessagesAsRead_read db now u v m hm hc hr, ?_⟩
  intro s hs hv
  rw [summary_unreadCount _ u s hs, List.length_eq_zero, List.filter_eq_nil_iff]
  intro m hm
  simp only [decide_eq_true_eq, not_and]
  intro hsender hrecv hread
  have hm2 := hm
  rw [markMessagesAsRead_messages, List.mem_map] at hm2
  obtain ⟨m0, hm0, hf⟩ := hm2
  have hcid : m.conversationId = getConversationId u.toString v := by
    have h0 := hcons m0 hm0
    by_cases hmatch : m0.conversationId = getConversationId u.toString v ∧ m0.receiver = u ∧
        m0.isRead = false
    · rw [if_pos hmatch] at hf
      rw [← hf]
      exact hmatch.1
    · rw [if_neg hmatch] at hf
      subst hf
      rw [h0, hsender, hrecv, hv, getConversationId_eq v u.toString,
        getConversationId_eq u.toString v]
      by_cases h1 : jsLt u.toString v = true
      · simp [h1, jsLt_asymm _ _ h1]
      · simp only [Bool.not_eq_true] at h1
        by_cases h2 : jsLt v u.toString = true
        · simp [h1, h2]
        · simp only [Bool.not_eq_true] at h2
          rw [jsLt_total _ _ h1 h2]
  rw [markMessagesAsRead_read db now u v m hm hcid hrecv] at hread
  cases hread

theorem markMessagesAsRead_unread_zero_witness :
    (∀ m ∈ exampleDb3.messages,
      m.conversationId = getConversationId m.sender.toString m.receiver.toString) ∧
    (∀ m ∈ (markMessagesAsRead exampleDb3 20 alice bob.toString).2.messages,
      m.conversationId = getConversationId alice.toString bob.toString → m.receiver = alice →
        m.isRead = true) ∧
    (∀ s ∈ (getAllConversations (markMessagesAsRead exampleDb3 20 alice bob.toString).2
        alice).data.getD [],
      s.user._id.toString = bob.toString → s.unreadCount = 0) :=
  ⟨by decide, markMessagesAsRead_unread_zero exampleDb3 20 alice bob.toString (by decide)⟩

/-- Send-then-confirm on a visible list that holds no entry with the temporary
identifier of this send and no entry with the durable identifier of the server
record (an ObjectId string): after a send whose persist request succeeds the list
is the previous list followed by the server record, the temporary identifier no
longer appears in it and exactly one entry has the durable identifier. -/
theorem handleSendMessage_confirmed (st : ChatState) (now createdNow : Nat)
    (content : JSString) (selectedUser : ClientUser) (savedMessage : ClientMessage)
    (hsel : st.selectedUser = some selectedUser) (hcontent : trim content ≠ [])
    (hid : (castObjectId savedMessage._id).isSome = true)
    (htemp : ∀ m ∈ st.messages, m._id ≠ tempIdOf now)
    (hdur : ∀ m ∈ st.messages, m._id ≠ savedMessage._id) :
    (handleSendMessage st now createdNow content (some savedMessage)).1.messages
      = st.messages ++ [savedMessage] ∧
    (handleSendMessage st now createdNow content (some savedMessage)).1.messages.countP
      (fun m => decide (m._id = tempIdOf now)) = 0 ∧
    (handleSendMessage st now createdNow content (some savedMessage)).1.messages.countP
      (fun m => decide (m._id = savedMessage._id)) = 1 := by
  have hne := tempIdOf_ne_objectId now savedMessage._id hid
  have hmsgs : (handleSendMessage st now createdNow content (some savedMessage)).1.messages
      = st.messages ++ [savedMessage] := by
    unfold handleSendMessage
    simp only [hsel, hcontent, if_false, List.map_append, List.map_cons, List.map_nil]
    rw [map_replace_of_fresh st.messages (tempIdOf now) savedMessage htemp]
    simp [tempMessage]
  rw [hmsgs]
  refine ⟨rfl, ?_, ?_⟩
  · rw [List.countP_eq_zero]
    intro m hm
    rcases List.mem_append.mp hm with h | h
    · simpa using htemp m h
    · rw [List.mem_singleton] at h
      subst h
      simpa using hne
  · rw [List.countP_append]
    have h0 : st.messages.countP (fun m => decide (m._id = savedMessage._id)) = 0 := by
      rw [List.countP_eq_zero]
      intro m hm
      simpa using hdur m hm
    rw [h0]
    simp [List.countP_cons]

theorem handleSendMessage_confirmed_witness :
    ((answeredChat.selectedUser = some bobUser ∧ trim [32, 104, 105] ≠ [] ∧
        (castObjectId savedExample._id).isSome = true) ∧
      answeredChat.messages = [earlierMessage] ∧
      (∀ m ∈ answeredChat.messages, m._id ≠ tempIdOf 5) ∧
      (∀ m ∈ answeredChat.messages, m._id ≠ savedExample._id)) ∧
    (handleSendMessage answeredChat 5 6 [32, 104, 105] (some savedExample)).1.messages
      = [earlierMessage, savedExample] ∧
    (handleSendMessage answeredChat 5 6 [32, 104, 105] (some savedExample)).1.messages.countP
      (fun m => decide (m._id = tempIdOf 5)) = 0 ∧
    (handleSendMessage answeredChat 5 6 [32, 104, 105] (some savedExample)).1.messages.countP
      (fun m => decide (m._id = savedExample._id)) = 1 :=
  ⟨⟨⟨by decide, by decide, by decide⟩, rfl, by decide, by decide⟩,
    handleSendMessage_confirmed answeredChat 5 6 [32, 104, 105] bobUser savedExample
      (by decide) (by decide) (by decide) (by decide) (by decide)⟩

theorem findIdx?_split {α : Type} (p : α → Bool) (conv : α) (B : List α) :
    ∀ A : List α, (∀ c ∈ A, p c = false) → p conv = true →
      (A ++ conv :: B).findIdx? p = some A.length
  | [], _, hc => by simp [List.findIdx?_cons, hc]
  | a :: A, hA, hc => by
    have ha : p a = false := hA a (List.mem_cons_self a A)
    have ih := findIdx?_split p conv B A (fun c h => hA c (List.mem_cons_of_mem a h)) hc
    rw [List.cons_append, List.findIdx?_cons, ha]
    simp only [Bool.false_eq_true, if_false]
    rw [List.findIdx?_succ, ih]
    rfl

theorem get?_split {α : Type} (conv : α) (B : List α) :
    ∀ A : List α, (A ++ conv :: B).get? A.length = some conv
  | [] => rfl
  | _ :: A => by
    rw [List.cons_append, List.length_cons, List.get?_cons_succ]
    exact get?_split conv B A

theorem eraseIdx_split {α : Type} (conv : α) (B : List α) :
    ∀ A : List α, (A ++ conv :: B).eraseIdx A.length = A ++ B
  | [] => rfl
  | a :: A => by
    rw [List.cons_append, List.length_cons, List.eraseIdx_cons_succ, eraseIdx_split conv B A]
    rfl

theorem updateConversation_found (userId : JSString) (message : ClientMessage)
    (A B : List Conversation) (conv : Conversation)
    (hA : ∀ c ∈ A, some c.user._id ≠ otherUserIdOf userId message)
    (hconv : some conv.user._id = otherUserIdOf userId message) :
    updateConversationWithNewMessage userId message (A ++ conv :: B) =
      { conv with lastMessage := some message } :: (A ++ B) := by
  have hidx := findIdx?_split
    (fun c : Conversation => decide (some c.user._id = otherUserIdOf userId message)) conv B A
    (fun c hc => by simpa using hA c hc) (by simpa using hconv)
  unfold updateConversationWithNewMessage
  unfold otherUserIdOf at hidx
  simp only [hidx, get?_split, eraseIdx_split]

theorem updateConversation_absent (userId : JSString) (message : ClientMessage)
    (prev : List Conversation)
    (h : ∀ c ∈ prev, some c.user._id ≠ otherUserIdOf userId message) :
    updateConversationWithNewMessage userId message prev = prev := by
  have hidx : prev.findIdx?
      (fun c : Conversation => decide (some c.user._id = otherUserIdOf userId message)) = none := by
    rw [List.findIdx?_eq_none_iff]
    intro c hc
    simpa using h c hc
  unfold updateConversationWithNewMessage
  unfold otherUserIdOf at hidx
  simp only [hidx]

theorem handleSelectUser_conversations (st : ChatState) (otherUser : ClientUser)
    (loaded : Option (List ClientMessage)) (marked : Bool) :
    (handleSelectUser st otherUser loaded marked).conversations.map
        (fun c => (c.user, c.lastMessage)) =
      st.conversations.map (fun c => (c.user, c.lastMessage)) := by
  unfold handleSelectUser
  cases loaded with
  | none => rfl
  | some loadedMessages =>
    cases marked with
    | false => rfl
    | true =>
      simp only [if_true, List.map_map]
      apply List.map_congr_left
      intro c _
      simp only [Function.comp]
      split <;> rfl

theorem emptyFirst_of_map (l1 l2 : List Conversation)
    (h : l1.map (fun c => (c.user, c.lastMessage)) = l2.map (fun c => (c.user, c.lastMessage))) :
    (EmptyFirst l2 → EmptyFirst l1) ∧ (RecencySorted l2 → RecencySorted l1) ∧
    (DistinctCounterparts l2 → DistinctCounterparts l1) := by
  have hlast : l1.map (fun c => c.lastMessage) = l2.map (fun c => c.lastMessage) := by
    have := congrArg (List.map Prod.snd) h
    simpa [List.map_map, Function.comp] using this
  have huser : l1.map (fun c => c.user._id) = l2.map (fun c => c.user._id) := by
    have := congrArg (List.map (fun p : ClientUser × Option ClientMessage => p.1._id)) h
    simpa [List.map_map, Function.comp] using this
  refine ⟨?_, ?_, ?_⟩
  · intro h2
    unfold EmptyFirst at h2 ⊢
    have e1 : List.Pairwise (fun a b : Option ClientMessage => b = none → a = none)
        (l1.map (fun c => c.lastMessage)) := by
      rw [hlast, List.pairwise_map]
      exact h2
    rw [List.pairwise_map] at e1
    exact e1
  · intro h2
    unfold RecencySorted at h2 ⊢
    have e : ∀ l : List Conversation, l.filterMap (fun c => c.lastMessage) =
        (l.map (fun c => c.lastMessage)).filterMap id := by
      intro l
      rw [List.filterMap_map]
      rfl
    rw [e l1, hlast, ← e l2]
    exact h2
  · intro h2
    unfold DistinctCounterparts at h2 ⊢
    rw [huser]
    exact h2

/-- Opening `/chat/<id>` with dave's identity written in upper case while dave is
listed: `handleUserFromUrl` compares the spelling of the parameter, finds no
summary, and the profile resolved for that identity is dave's, whose `_id` is in
lower case, so dave is listed twice. -/
theorem handleUserFromUrl_lists_twice :
    DistinctCounterparts listedChat.conversations ∧
    (handleUserFromUrl listedChat daveUpper (some daveUser) none false).conversations.map
      (fun c => c.user._id) = [dave.toString, carol.toString, bob.toString, dave.toString] ∧
    ¬ DistinctCounterparts
      (handleUserFromUrl listedChat daveUpper (some daveUser) none false).conversations := by
  decide

/-! ## Claims -/

/-- C1: for every pair of user identity strings `a` and `b`,
`getConversationId a b` equals `getConversationId b a`. -/
theorem getConversationId_comm (a b : JSString) :
    getConversationId a b = getConversationId b a := by
  rw [getConversationId_eq, getConversationId_eq]
  by_cases hba : jsLt b a = true
  · simp [hba, jsLt_asymm b a hba]
  · simp only [Bool.not_eq_true] at hba
    by_cases hab : jsLt a b = true
    · simp [hba, hab]
    · simp only [Bool.not_eq_true] at hab
      have := jsLt_total a b hab hba
      subst this
      simp

/-- C2 (counterexample): a content of 1001 characters, a space followed by 1000
letters, is accepted: after the `trim` setter it has 1000 characters. -/
theorem sendMessage_accepts_padded_content :
    (32 :: List.replicate 1000 97).length = 1001 ∧
    (sendMessage exampleDb (exampleId 9) 5 alice
      { receiverId := some bob.toString, content := some (32 :: List.replicate 1000 97) }).1.status
        = 201 ∧
    (sendMessage exampleDb (exampleId 9) 5 alice
      { receiverId := some bob.toString, content := some (32 :: List.replicate 1000 97) }).1.success
        = true := by
  set_option maxRecDepth 1000000 in decide

/-- C2 (amended): `sendMessage` fails, with a non-success response, for every
request whose content is empty, consists only of white space, or is longer than
1000 characters after its surrounding white space is trimmed. -/
theorem sendMessage_rejects_invalid_content (db : Db) (newId : ObjectId) (now : Nat)
    (user : ObjectId) (receiverId : Option JSString) (content : JSString)
    (h : content.all isWhiteSpace = true ∨ 1000 < (trim content).length) :
    (sendMessage db newId now user
      { receiverId := receiverId, content := some content }).1.success = false := by
  rcases sendMessage_cases db newId now user { receiverId := receiverId, content := some content }
    with hfail | ⟨r, c, rid, hbody, _, hc, hlen, _⟩
  · exact hfail.1
  · injection hbody with _ hcontent
    injection hcontent with hcontent
    subst hcontent
    rcases h with h | h
    · exact absurd (trim_eq_nil_of_all h) hc
    · omega

theorem sendMessage_rejects_invalid_content_witness :
    ([32, 9].all isWhiteSpace = true ∨ 1000 < (trim [32, 9]).length) ∧
    (sendMessage exampleDb (exampleId 9) 5 alice
      { receiverId := some bob.toString, content := some [32, 9] }).1.success = false :=
  ⟨by decide, sendMessage_rejects_invalid_content exampleDb (exampleId 9) 5 alice
    (some bob.toString) [32, 9] (by decide)⟩

/-- C3 (counterexample): alice posts to `carol`, a well-formed identity that
resolves to no user; the call answers 201 and the message is stored. -/
theorem sendMessage_unknown_receiver_stored :
    findUser exampleDb carol = none ∧
    (sendMessage exampleDb (exampleId 9) 5 alice
      { receiverId := some carol.toString, content := some [104, 105] }).1.status = 201 ∧
    (sendMessage exampleDb (exampleId 9) 5 alice
      { receiverId := some carol.toString, content := some [104, 105] }).2.messages.length = 1 := by
  decide

/-- C3 (amended): `sendMessage` does not look the receiver up. For a request
with valid content whose receiver does not resolve to a known user: if
`receiverId` is not a well-formed ObjectId string the call fails with status 400
or 500 and stores nothing; if it is well-formed the call answers 201, stores the
message and returns it with the receiver populated as `null`. -/
theorem sendMessage_unknown_receiver (db : Db) (newId : ObjectId) (now : Nat)
    (user : ObjectId) (r c : JSString)
    (hunknown : ∀ rid, castObjectId r = some rid → findUser db rid = none)
    (hc : trim c ≠ []) (hlen : (trim c).length ≤ 1000)
    (hfresh : ∀ m ∈ db.messages, m._id ≠ newId) :
    (castObjectId r = none →
      (sendMessage db newId now user { receiverId := some r, content := some c }).1.success = false ∧
      ((sendMessage db newId now user { receiverId := some r, content := some c }).1.status = 400 ∨
       (sendMessage db newId now user { receiverId := some r, content := some c }).1.status = 500) ∧
      (sendMessage db newId now user { receiverId := some r, content := some c }).2 = db) ∧
    (∀ rid, castObjectId r = some rid →
      sendMessage db newId now user { receiverId := some r, content := some c } =
        ({ status := 201, success := true, message := none, count := none,
           data := some
             { doc := newMessage newId now user rid (trim c) (getConversationId user.toString r),
               sender := findUser db user, receiver := none } },
         { db with messages := db.messages ++
             [newMessage newId now user rid (trim c) (getConversationId user.toString r)] })) := by
  constructor
  · intro hnone
    rcases sendMessage_cases db newId now user { receiverId := some r, content := some c }
      with hfail | ⟨r1, c1, rid, hbody, hr, _⟩
    · exact ⟨hfail.1, hfail.2.1, hfail.2.2.2⟩
    · injection hbody with hr1 _
      injection hr1 with hr1
      subst hr1
      rw [hnone] at hr
      cases hr
  · intro rid hr
    rw [sendMessage_ok db newId now user rid r c hr hc hlen hfresh]
    simp [populate, newMessage, hunknown rid hr]

theorem sendMessage_unknown_receiver_witness :
    sendMessage exampleDb (exampleId 9) 5 alice
        { receiverId := some carol.toString, content := some [104, 105] } =
      ({ status := 201, success := true, message := none, count := none,
         data := some
           { doc := newMessage (exampleId 9) 5 alice carol (trim [104, 105])
               (getConversationId alice.toString carol.toString),
             sender := findUser exampleDb alice, receiver := none } },
       { exampleDb with messages := exampleDb.messages ++
           [newMessage (exampleId 9) 5 alice carol (trim [104, 105])
             (getConversationId alice.toString carol.toString)] }) :=
  (sendMessage_unknown_receiver exampleDb (exampleId 9) 5 alice carol.toString [104, 105]
    (by
      intro rid h
      have hc : castObjectId carol.toString = some carol := by decide
      rw [hc] at h
      cases h
      decide)
    (by decide) (by decide) (by decide)).2 carol (by decide)

/-- C4: for every successful `sendMessage` by the authenticated user `s` with
body (`receiverId` r, `content` c), the store gains exactly one record, appended
to the collection, with sender `s`, receiver the ObjectId `r` denotes, content
`c` trimmed, `isRead = false` and `conversationId = getConversationId s r`. -/
theorem sendMessage_stores_record (db : Db) (newId : ObjectId) (now : Nat) (s : ObjectId)
    (body : SendBody) (h : (sendMessage db newId now s body).1.success = true) :
    ∃ r c m, body.receiverId = some r ∧ body.content = some c ∧
      (sendMessage db newId now s body).2.users = db.users ∧
      (sendMessage db newId now s body).2.messages = db.messages ++ [m] ∧
      m.sender = s ∧ castObjectId r = some m.receiver ∧ m.content = trim c ∧
      m.isRead = false ∧ m.conversationId = getConversationId s.toString r ∧
      m.createdAt = now := by
  rcases sendMessage_cases db newId now s body with hfail | ⟨r, c, rid, hbody, hr, hc, hlen, hfresh⟩
  · rw [hfail.1] at h
    cases h
  · subst hbody
    refine ⟨r, c, newMessage newId now s rid (trim c) (getConversationId s.toString r),
      rfl, rfl, ?_⟩
    rw [sendMessage_ok db newId now s rid r c hr hc hlen hfresh]
    exact ⟨rfl, rfl, rfl, hr, rfl, rfl, rfl, rfl⟩

theorem sendMessage_stores_record_witness :
    (sendMessage exampleDb (exampleId 9) 5 alice
      { receiverId := some bob.toString, content := some [32, 104, 105, 32] }).1.success = true ∧
    ∃ r c m, (some bob.toString : Option JSString) = some r ∧
      (some [32, 104, 105, 32] : Option JSString) = some c ∧
      (sendMessage exampleDb (exampleId 9) 5 alice
        { receiverId := some bob.toString, content := some [32, 104, 105, 32] }).2.users
          = exampleDb.users ∧
      (sendMessage exampleDb (exampleId 9) 5 alice
        { receiverId := some bob.toString, content := some [32, 104, 105, 32] }).2.messages
          = exampleDb.messages ++ [m] ∧
      m.sender = alice ∧ castObjectId r = some m.receiver ∧ m.content = trim c ∧
      m.isRead = false ∧ m.conversationId = getConversationId alice.toString r ∧
      m.createdAt = 5 :=
  ⟨by decide, sendMessage_stores_record exampleDb (exampleId 9) 5 alice
    { receiverId := some bob.toString, content := some [32, 104, 105, 32] } (by decide)⟩

/-- C5: for every `sendMessage` request that is rejected (in particular one whose
content is the empty string), the database after the call is the database
before it: no record is created. -/
theorem sendMessage_rejected_unchanged (db : Db) (newId : ObjectId) (now : Nat)
    (user : ObjectId) (body : SendBody)
    (h : (sendMessage db newId now user body).1.success = false) :
    (sendMessage db newId now user body).2 = db := by
  rcases sendMessage_cases db newId now user body with hfail | ⟨r, c, rid, hbody, hr, hc, hlen, hfresh⟩
  · exact hfail.2.2.2
  · subst hbody
    rw [sendMessage_ok db newId now user rid r c hr hc hlen hfresh] at h
    cases h

theorem sendMessage_rejected_unchanged_witness :
    (sendMessage exampleDb3 (exampleId 6) 10 alice
      { receiverId := some bob.toString, content := some [] }).1.success = false ∧
    (sendMessage exampleDb3 (exampleId 6) 10 alice
      { receiverId := some bob.toString, content := some [] }).2 = exampleDb3 :=
  ⟨by decide, sendMessage_rejected_unchanged exampleDb3 (exampleId 6) 10 alice
    { receiverId := some bob.toString, content := some [] } (by decide)⟩

/-- C6: for every database and every pair (authenticated user `u`, counterpart
`v`), `getConversation` answers 200 with success, and its data are exactly the
stored messages whose `conversationId` is `getConversationId u v`, populated,
each as often as it is stored, in ascending order of creation time; the count
is their number, so the data are the empty list exactly when no stored message
has that `conversationId`. -/
theorem getConversation_spec (db : Db) (u : ObjectId) (v : JSString) :
    ∃ msgs : List PopulatedMessage,
      getConversation db u v =
        { status := 200, success := true, message := none, count := some msgs.length,
          data := some msgs } ∧
      List.Perm msgs ((db.messages.filter
        (fun m => decide (m.conversationId = getConversationId u.toString v))).map (populate db)) ∧
      List.Sorted (fun a b : PopulatedMessage => a.doc.createdAt ≤ b.doc.createdAt) msgs ∧
      (msgs = [] ↔ db.messages.filter
        (fun m => decide (m.conversationId = getConversationId u.toString v)) = []) :=
  getConversation_result db u v

/-- C7: if `sendMessage` from `s` to `r` succeeds with a creation time later than
that of every message already stored, then `getConversation s r` right
afterwards returns what it returned before the send followed by the new
message, which is unread, as its last element. -/
theorem getConversation_after_send (db : Db) (newId : ObjectId) (now : Nat) (s : ObjectId)
    (body : SendBody) (hsucc : (sendMessage db newId now s body).1.success = true)
    (hlater : ∀ m ∈ db.messages, m.createdAt < now) :
    ∃ r pm before, body.receiverId = some r ∧
      (sendMessage db newId now s body).1.data = some pm ∧
      (sendMessage db newId now s body).2.messages = db.messages ++ [pm.doc] ∧
      pm.doc.isRead = false ∧
      (getConversation db s r).data = some before ∧
      (getConversation (sendMessage db newId now s body).2 s r).data = some (before ++ [pm]) ∧
      (getConversation (sendMessage db newId now s body).2 s r).count
        = some (before.length + 1) := by
  rcases sendMessage_cases db newId now s body with hfail | ⟨r, c, rid, hbody, hr, hc, hlen, hfresh⟩
  · rw [hfail.1] at hsucc
    cases hsucc
  · subst hbody
    rw [sendMessage_ok db newId now s rid r c hr hc hlen hfresh]
    refine ⟨r, _, _, rfl, rfl, rfl, rfl, rfl, ?_⟩
    have hsort : (getConversation { db with messages := db.messages ++
          [newMessage newId now s rid (trim c) (getConversationId s.toString r)] } s r).data =
        some (sortCreatedAtAsc ((db.messages.filter
          (fun m => decide (m.conversationId = getConversationId s.toString r))).map (populate db))
          ++ [populate db (newMessage newId now s rid (trim c) (getConversationId s.toString r))]) := by
      have hle : ∀ b ∈ (db.messages.filter
          (fun m => decide (m.conversationId = getConversationId s.toString r))).map (populate db),
          b.doc.createdAt ≤ (populate db
            (newMessage newId now s rid (trim c) (getConversationId s.toString r))).doc.createdAt := by
        intro b hb
        simp only [List.mem_map, List.mem_filter] at hb
        obtain ⟨m, ⟨hm, _⟩, rfl⟩ := hb
        exact Nat.le_of_lt (hlater m hm)
      have hnew : (newMessage newId now s rid (trim c)
          (getConversationId s.toString r)).conversationId = getConversationId s.toString r := rfl
      simp only [getConversation, populate_appended, List.filter_append, List.map_append]
      simp only [List.filter, hnew, decide_True, List.map]
      unfold sortCreatedAtAsc
      rw [insertionSort_append_last _ _ _ hle]
    refine ⟨hsort, ?_⟩
    simp only [getConversation] at hsort ⊢
    simp only [Option.some.injEq] at hsort
    rw [hsort]
    simp

theorem getConversation_after_send_witness :
    ((sendMessage exampleDb3 (exampleId 6) 10 alice
        { receiverId := some bob.toString, content := some [104, 105] }).1.success = true ∧
      ∀ m ∈ exampleDb3.messages, m.createdAt < 10) ∧
    ∃ r pm before, (some bob.toString : Option JSString) = some r ∧
      (sendMessage exampleDb3 (exampleId 6) 10 alice
        { receiverId := some bob.toString, content := some [104, 105] }).1.data = some pm ∧
      (sendMessage exampleDb3 (exampleId 6) 10 alice
        { receiverId := some bob.toString, content := some [104, 105] }).2.messages
          = exampleDb3.messages ++ [pm.doc] ∧
      pm.doc.isRead = false ∧
      (getConversation exampleDb3 alice r).data = some before ∧
      (getConversation (sendMessage exampleDb3 (exampleId 6) 10 alice
        { receiverId := some bob.toString, content := some [104, 105] }).2 alice r).data
          = some (before ++ [pm]) ∧
      (getConversation (sendMessage exampleDb3 (exampleId 6) 10 alice
        { receiverId := some bob.toString, content := some [104, 105] }).2 alice r).count
          = some (before.length + 1) :=
  ⟨⟨by decide, by decide⟩, getConversation_after_send exampleDb3 (exampleId 6) 10 alice
    { receiverId := some bob.toString, content := some [104, 105] } (by decide) (by decide)⟩

/-- C8 (failing input): after alice has posted to the unregistered identity
`carol`, `getAllConversations` for alice throws on the `null` receiver and
answers 500 with no summary, although alice has a message with `carol`. In the
scenario m1, m2, m3 both parties get exactly one summary, for the other party. -/
theorem getAllConversations_fails_on_dangling :
    danglingDb.messages.map (fun m => (m.sender, m.receiver)) = [(alice, carol)] ∧
    findUser danglingDb carol = none ∧
    getAllConversations danglingDb alice = serverError Thrown.typeError ∧
    ((getAllConversations exampleDb3 alice).data.getD []).map (fun s => s.user._id) = [bob] ∧
    ((getAllConversations exampleDb3 bob).data.getD []).map (fun s => s.user._id) = [alice] := by
  decide

/-- C9: for every database with distinct creation times and every user `u`, the
`lastMessage` of each summary returned by `getAllConversations u` is a stored
message exchanged between `u` and the summary's other participant, and every
other message exchanged between the two was created strictly earlier. -/
theorem getAllConversations_lastMessage (db : Db) (u : ObjectId) (s : Summary)
    (hdistinct : db.messages.Pairwise (fun a b => a.createdAt ≠ b.createdAt))
    (hs : s ∈ (getAllConversations db u).data.getD []) :
    s.lastMessage = populate db s.lastMessage.doc ∧
    s.lastMessage.doc ∈ db.messages ∧ Between u s.user._id s.lastMessage.doc ∧
    ∀ m ∈ db.messages, Between u s.user._id m → m ≠ s.lastMessage.doc →
      m.createdAt < s.lastMessage.doc.createdAt := by
  obtain ⟨m0, hm0, hinv, hfind, huser, hlast, _⟩ := summary_of_mem db u s hs
  have hdoc : s.lastMessage.doc = m0 := by rw [hlast]; rfl
  rw [hdoc, huser]
  refine ⟨by rw [hlast], hm0, (between_iff u _ m0).mpr ⟨hinv, rfl⟩, ?_⟩
  intro m hm hbetween hne
  obtain ⟨hminv, hmother⟩ := (between_iff u _ m).mp hbetween
  have hmdocs : m ∈ conversationDocs db u := mem_conversationDocs.mpr ⟨hm, hminv⟩
  have hkey : decide (summaryKey u m = summaryKey u m0) = true :=
    decide_eq_true ((summaryKey_eq_iff u m m0).mpr hmother)
  have hle := find?_sorted_first (fun a b : Message => b.createdAt ≤ a.createdAt) _ _ m0
    (conversationDocs_sorted db u) hfind m hmdocs hkey
  rcases hle with heq | hle
  · exact absurd heq hne
  · have hneq : m.createdAt ≠ m0.createdAt :=
      List.Pairwise.forall (fun _ _ h => h.symm) hdistinct hm hm0 hne
    omega

theorem getAllConversations_lastMessage_witness :
    (exampleDb3.messages.Pairwise (fun a b => a.createdAt ≠ b.createdAt) ∧
      exampleSummary ∈ (getAllConversations exampleDb3 alice).data.getD []) ∧
    exampleSummary.lastMessage = populate exampleDb3 exampleSummary.lastMessage.doc ∧
    exampleSummary.lastMessage.doc ∈ exampleDb3.messages ∧
    Between alice exampleSummary.user._id exampleSummary.lastMessage.doc ∧
    ∀ m ∈ exampleDb3.messages, Between alice exampleSummary.user._id m →
      m ≠ exampleSummary.lastMessage.doc →
      m.createdAt < exampleSummary.lastMessage.doc.createdAt :=
  ⟨⟨by decide, by decide⟩,
    getAllConversations_lastMessage exampleDb3 alice exampleSummary (by decide) (by decide)⟩

/-- C10: for every database and user `u`, the `unreadCount` of the summary that
`getAllConversations u` returns for the other participant `v` is the number of
stored messages with sender `v`, receiver `u` and `isRead = false`. -/
theorem getAllConversations_unreadCount (db : Db) (u : ObjectId) (s : Summary)
    (hs : s ∈ (getAllConversations db u).data.getD []) :
    s.unreadCount = (db.messages.filter (fun m =>
      decide (m.sender = s.user._id ∧ m.receiver = u ∧ m.isRead = false))).length :=
  summary_unreadCount db u s hs

theorem getAllConversations_unreadCount_witness :
    exampleSummary ∈ (getAllConversations exampleDb3 alice).data.getD [] ∧
    exampleSummary.unreadCount = (exampleDb3.messages.filter (fun m =>
      decide (m.sender = exampleSummary.user._id ∧ m.receiver = alice ∧ m.isRead = false))).length :=
  ⟨by decide, getAllConversations_unreadCount exampleDb3 alice exampleSummary (by decide)⟩

/-- C11 (failing input): bob posts to the registered user dave, writing dave's
identity with an upper-case hexadecimal digit. `sendMessage` answers 201 and
stores the receiver as the cast identity `dave`, but derives the stored
`conversationId` from the spelling it was given, so it is not
`getConversationId` of the two users. `markMessagesAsRead dave bob` then answers
with success and changes nothing: the message addressed to dave is still unread
and `getAllConversations dave` reports `unreadCount = 1` for bob. -/
theorem markMessagesAsRead_leaves_unread :
    ((sendMessage letterDb (exampleId 7) 7 bob
        { receiverId := some daveUpper, content := some [104, 105] }).1.status = 201 ∧
      upperDb = (sendMessage letterDb (exampleId 7) 7 bob
        { receiverId := some daveUpper, content := some [104, 105] }).2) ∧
    (upperDb.messages.map (fun m => (m.sender, m.receiver, m.isRead)) = [(bob, dave, false)] ∧
      upperDb.messages.map (fun m => m.conversationId) =
        [getConversationId bob.toString daveUpper] ∧
      getConversationId bob.toString daveUpper ≠ getConversationId bob.toString dave.toString ∧
      getConversationId bob.toString daveUpper ≠ getConversationId dave.toString bob.toString) ∧
    (markMessagesAsRead upperDb 20 dave bob.toString).1.status = 200 ∧
    (markMessagesAsRead upperDb 20 dave bob.toString).1.success = true ∧
    (markMessagesAsRead upperDb 20 dave bob.toString).2 = upperDb ∧
    (markMessagesAsRead upperDb 20 dave bob.toString).2.messages.map
      (fun m => (m.sender, m.receiver, m.isRead)) = [(bob, dave, false)] ∧
    ((getAllConversations (markMessagesAsRead upperDb 20 dave bob.toString).2 dave).data.getD
      []).map (fun s => (s.user._id, s.unreadCount)) = [(bob, 1)] := by
  decide

/-- C12: `markMessagesAsRead` is idempotent: for every database, user `u` and
counterpart `v`, applying it twice in succession leaves the database that one
application leaves, both calls answer 200 with success, and a call made when no
message of the conversation addressed to `u` is unread leaves the database
unchanged. -/
theorem markMessagesAsRead_idempotent (db : Db) (now1 now2 : Nat) (u : ObjectId)
    (v : JSString) :
    (markMessagesAsRead (markMessagesAsRead db now1 u v).2 now2 u v).2 =
      (markMessagesAsRead db now1 u v).2 ∧
    (markMessagesAsRead db now1 u v).1.status = 200 ∧
    (markMessagesAsRead db now1 u v).1.success = true ∧
    (markMessagesAsRead (markMessagesAsRead db now1 u v).2 now2 u v).1.status = 200 ∧
    (markMessagesAsRead (markMessagesAsRead db now1 u v).2 now2 u v).1.success = true ∧
    ((∀ m ∈ db.messages, m.conversationId = getConversationId u.toString v → m.receiver = u →
        m.isRead = true) → (markMessagesAsRead db now1 u v).2 = db) :=
  ⟨markMessagesAsRead_of_none _ now2 u v
      (fun m hm hc hr => markMessagesAsRead_read db now1 u v m hm hc hr),
    rfl, rfl, rfl, rfl, markMessagesAsRead_of_none db now1 u v⟩

theorem markMessagesAsRead_idempotent_witness :
    (exampleDb3.messages.map (fun m => (m.sender, m.receiver, m.isRead)) =
        [(alice, bob, false), (bob, alice, false), (alice, bob, false)] ∧
      (markMessagesAsRead exampleDb3 20 alice bob.toString).2.messages.map
          (fun m => (m.sender, m.receiver, m.isRead)) =
        [(alice, bob, false), (bob, alice, true), (alice, bob, false)] ∧
      (markMessagesAsRead exampleDb3 20 alice bob.toString).2 ≠ exampleDb3) ∧
    ((markMessagesAsRead (markMessagesAsRead exampleDb3 20 alice bob.toString).2 21 alice
        bob.toString).2 = (markMessagesAsRead exampleDb3 20 alice bob.toString).2 ∧
      (markMessagesAsRead exampleDb3 20 alice bob.toString).1.status = 200 ∧
      (markMessagesAsRead (markMessagesAsRead exampleDb3 20 alice bob.toString).2 21 alice
        bob.toString).1.status = 200) ∧
    ((∃ m ∈ (markMessagesAsRead exampleDb3 20 alice bob.toString).2.messages,
        m.conversationId = getConversationId alice.toString bob.toString ∧ m.receiver = alice) ∧
      (∀ m ∈ (markMessagesAsRead exampleDb3 20 alice bob.toString).2.messages,
        m.conversationId = getConversationId alice.toString bob.toString → m.receiver = alice →
          m.isRead = true) ∧
      (markMessagesAsRead (markMessagesAsRead exampleDb3 20 alice bob.toString).2 30 alice
        bob.toString).2 = (markMessagesAsRead exampleDb3 20 alice bob.toString).2) :=
  ⟨by decide,
    ⟨(markMessagesAsRead_idempotent exampleDb3 20 21 alice bob.toString).1,
      (markMessagesAsRead_idempotent exampleDb3 20 21 alice bob.toString).2.1,
      (markMessagesAsRead_idempotent exampleDb3 20 21 alice bob.toString).2.2.2.1⟩,
    by decide, by decide,
    (markMessagesAsRead_idempotent (markMessagesAsRead exampleDb3 20 alice bob.toString).2 30 31
      alice bob.toString).2.2.2.2.2 (by decide)⟩

/-- C13: a stored message is immutable except for its read flag. `sendMessage`
keeps every stored message as it is and only appends; `markMessagesAsRead u v`
keeps the number and order of the messages and, for each of them, its `_id`,
sender, receiver, content, `conversationId` and creation time; it leaves a message
wholly unchanged unless the message has `conversationId = getConversationId u v`
and receiver `u`, and a message that was read stays read. -/
theorem stored_messages_immutable (db : Db) (newId : ObjectId) (now : Nat) (s : ObjectId)
    (body : SendBody) (now2 : Nat) (u : ObjectId) (v : JSString) :
    (∃ added, (sendMessage db newId now s body).2.messages = db.messages ++ added) ∧
    List.Forall₂ (fun m m1 : Message =>
        m1._id = m._id ∧ m1.sender = m.sender ∧ m1.receiver = m.receiver ∧
        m1.content = m.content ∧ m1.conversationId = m.conversationId ∧
        m1.createdAt = m.createdAt ∧ (m.isRead = true → m1.isRead = true) ∧
        (¬ (m.conversationId = getConversationId u.toString v ∧ m.receiver = u) → m1 = m))
      db.messages (markMessagesAsRead db now2 u v).2.messages := by
  constructor
  · rcases sendMessage_cases db newId now s body with hfail | ⟨r, c, rid, hbody, hr, hc, hlen, hfresh⟩
    · exact ⟨[], by rw [hfail.2.2.2]; simp⟩
    · subst hbody
      rw [sendMessage_ok db newId now s rid r c hr hc hlen hfresh]
      exact ⟨_, rfl⟩
  · rw [markMessagesAsRead_messages, List.forall₂_map_right_iff, List.forall₂_same]
    intro m _
    by_cases hmatch : m.conversationId = getConversationId u.toString v ∧ m.receiver = u ∧
        m.isRead = false
    · rw [if_pos hmatch]
      exact ⟨rfl, rfl, rfl, rfl, rfl, rfl, fun _ => rfl, fun h => absurd ⟨hmatch.1, hmatch.2.1⟩ h⟩
    · rw [if_neg hmatch]
      exact ⟨rfl, rfl, rfl, rfl, rfl, rfl, fun h => h, fun _ => rfl⟩

/-- C14: for every presence directory, after `user:join u` from connection `c1`
followed by `user:join u` from connection `c2`, looking `u` up in `activeUsers`
yields `c2`, and a following `message:send` addressed to `u` emits one
`message:receive`, to `c2`, and nothing else (so nothing to `c1`). -/
theorem join_twice_last_wins {μ : Type} (activeUsers : JSMap SocketId) (c1 c2 : SocketId)
    (u : JSString) (message : μ) :
    JSMap.get (userJoin μ (userJoin μ activeUsers c1 u).1 c2 u).1 u = some c2 ∧
    messageSend (userJoin μ (userJoin μ activeUsers c1 u).1 c2 u).1 u message =
      [{ target := Target.to c2, event := "message:receive",
         payload := Payload.message message }] := by
  have hget : JSMap.get (userJoin μ (userJoin μ activeUsers c1 u).1 c2 u).1 u = some c2 :=
    JSMap.get_set_self _ u c2
  refine ⟨hget, ?_⟩
  unfold messageSend
  rw [hget]

/-- C15: on disconnect of connection `c`: if some entry of `activeUsers` has the
handle `c`, an identity that maps to `c` is removed from the directory (no entry
for it remains) and one `user:offline` event for that identity is broadcast to
the other connections; if no entry has the handle `c`, the directory is unchanged
and nothing is emitted. -/
theorem disconnect_spec {μ : Type} (activeUsers : JSMap SocketId) (c : SocketId) :
    ((∃ e ∈ activeUsers, e.2 = c) →
      ∃ userId, (userId, c) ∈ activeUsers ∧
        disconnect μ activeUsers c =
          (JSMap.delete activeUsers userId,
            [{ target := Target.broadcast c, event := "user:offline",
               payload := Payload.id userId }]) ∧
        JSMap.get (JSMap.delete activeUsers userId) userId = none) ∧
    ((∀ e ∈ activeUsers, e.2 ≠ c) → disconnect μ activeUsers c = (activeUsers, [])) := by
  constructor
  · rintro ⟨e, he, hec⟩
    cases hf : activeUsers.find? (fun e => decide (e.2 = c)) with
    | none =>
      rw [List.find?_eq_none] at hf
      have := hf e he
      simp [hec] at this
    | some e1 =>
      obtain ⟨k1, v1⟩ := e1
      have hv : v1 = c := by
        have := List.find?_some hf
        simpa using this
      subst hv
      refine ⟨k1, List.mem_of_find?_eq_some hf, ?_, JSMap.get_delete_self _ _⟩
      unfold disconnect
      rw [hf]
  · intro h
    have hf : activeUsers.find? (fun e => decide (e.2 = c)) = none := by
      rw [List.find?_eq_none]
      intro e he
      simpa using h e he
    unfold disconnect
    rw [hf]

theorem disconnect_spec_witness :
    (∃ e ∈ exampleDirectory, e.2 = SocketId.mk 2) ∧
    ∃ userId, (userId, SocketId.mk 2) ∈ exampleDirectory ∧
      disconnect JSString exampleDirectory (SocketId.mk 2) =
        (JSMap.delete exampleDirectory userId,
          [{ target := Target.broadcast (SocketId.mk 2), event := "user:offline",
             payload := Payload.id userId }]) ∧
      JSMap.get (JSMap.delete exampleDirectory userId) userId = none :=
  ⟨by decide, (@disconnect_spec JSString exampleDirectory (SocketId.mk 2)).1 (by decide)⟩

/-- C16: for every `message:send` request (`receiverId`, `message`) whose
`receiverId` is present in the presence directory, the relay emits exactly one
event, a `message:receive` to the connection registered for `receiverId`, whose
payload is the message of the request. -/
theorem messageSend_present {μ : Type} (activeUsers : JSMap SocketId) (receiverId : JSString)
    (c : SocketId) (message : μ) (h : JSMap.get activeUsers receiverId = some c) :
    messageSend activeUsers receiverId message =
      [{ target := Target.to c, event := "message:receive",
         payload := Payload.message message }] := by
  unfold messageSend
  rw [h]

theorem messageSend_present_witness :
    JSMap.get exampleDirectory bob.toString = some (SocketId.mk 2) ∧
    messageSend exampleDirectory bob.toString ([104, 105] : JSString) =
      [{ target := Target.to (SocketId.mk 2), event := "message:receive",
         payload := Payload.message [104, 105] }] :=
  ⟨by decide, messageSend_present exampleDirectory bob.toString (SocketId.mk 2) [104, 105]
    (by decide)⟩

/-- C17: the relay is stateless and fire-and-forget: a `message:send`,
`typing:start` or `typing:stop` request leaves the presence directory as it was;
when its receiver is absent it emits nothing; and a later `user:join` of that
receiver, from any connection, registers the connection and emits the
`user:online` broadcast only. -/
theorem relay_stateless {μ : Type} (activeUsers : JSMap SocketId) (socket : SocketId)
    (ev : ClientEvent μ) (r : JSString) (hrelay : ev.receiverId = some r) :
    (handleEvent activeUsers socket ev).1 = activeUsers ∧
    (JSMap.get activeUsers r = none → (handleEvent activeUsers socket ev).2 = []) ∧
    ∀ c : SocketId,
      handleEvent (handleEvent activeUsers socket ev).1 c (ClientEvent.userJoin r : ClientEvent μ) =
        (JSMap.set activeUsers r c,
          [{ target := Target.broadcast c, event := "user:online",
             payload := Payload.id r }]) := by
  cases ev with
  | userJoin userId => simp [ClientEvent.receiverId] at hrelay
  | disconnect => simp [ClientEvent.receiverId] at hrelay
  | messageSend receiverId message =>
    simp only [ClientEvent.receiverId, Option.some.injEq] at hrelay
    subst hrelay
    refine ⟨rfl, ?_, fun c => rfl⟩
    intro h
    simp [handleEvent, messageSend, h]
  | typingStart receiverId senderId =>
    simp only [ClientEvent.receiverId, Option.some.injEq] at hrelay
    subst hrelay
    refine ⟨rfl, ?_, fun c => rfl⟩
    intro h
    simp [handleEvent, typingStart, h]
  | typingStop receiverId senderId =>
    simp only [ClientEvent.receiverId, Option.some.injEq] at hrelay
    subst hrelay
    refine ⟨rfl, ?_, fun c => rfl⟩
    intro h
    simp [handleEvent, typingStop, h]

theorem relay_stateless_witness :
    (ClientEvent.messageSend carol.toString [104, 105] : ClientEvent JSString).receiverId
      = some carol.toString ∧
    JSMap.get exampleDirectory carol.toString = none ∧
    (handleEvent exampleDirectory (SocketId.mk 1)
      (ClientEvent.messageSend carol.toString [104, 105] : ClientEvent JSString)).1
        = exampleDirectory ∧
    (handleEvent exampleDirectory (SocketId.mk 1)
      (ClientEvent.messageSend carol.toString [104, 105] : ClientEvent JSString)).2 = [] ∧
    handleEvent (handleEvent exampleDirectory (SocketId.mk 1)
        (ClientEvent.messageSend carol.toString [104, 105] : ClientEvent JSString)).1
        (SocketId.mk 3) (ClientEvent.userJoin carol.toString : ClientEvent JSString) =
      (JSMap.set exampleDirectory carol.toString (SocketId.mk 3),
        [{ target := Target.broadcast (SocketId.mk 3), event := "user:online",
           payload := Payload.id carol.toString }]) :=
  ⟨by decide, by decide,
    (relay_stateless exampleDirectory (SocketId.mk 1)
      (ClientEvent.messageSend carol.toString [104, 105] : ClientEvent JSString)
      carol.toString (by decide)).1,
    (relay_stateless exampleDirectory (SocketId.mk 1)
      (ClientEvent.messageSend carol.toString [104, 105] : ClientEvent JSString)
      carol.toString (by decide)).2.1 (by decide),
    (relay_stateless exampleDirectory (SocketId.mk 1)
      (ClientEvent.messageSend carol.toString [104, 105] : ClientEvent JSString)
      carol.toString (by decide)).2.2 (SocketId.mk 3)⟩

/-- C18: for every `typing:start` (respectively `typing:stop`) request
(`receiverId`, `senderId`): if `receiverId` is present in the directory, exactly
one `typing:show` (respectively `typing:hide`) event carrying `senderId` is sent
to the receiver's registered connection; if `receiverId` is absent, nothing is
emitted. -/
theorem typing_relay {μ : Type} (activeUsers : JSMap SocketId) (receiverId senderId : JSString) :
    (∀ c, JSMap.get activeUsers receiverId = some c →
      typingStart μ activeUsers receiverId senderId =
        [{ target := Target.to c, event := "typing:show", payload := Payload.id senderId }] ∧
      typingStop μ activeUsers receiverId senderId =
        [{ target := Target.to c, event := "typing:hide", payload := Payload.id senderId }]) ∧
    (JSMap.get activeUsers receiverId = none →
      typingStart μ activeUsers receiverId senderId = [] ∧
      typingStop μ activeUsers receiverId senderId = []) := by
  constructor
  · intro c h
    unfold typingStart typingStop
    rw [h]
    exact ⟨rfl, rfl⟩
  · intro h
    unfold typingStart typingStop
    rw [h]
    exact ⟨rfl, rfl⟩

theorem typing_relay_witness :
    JSMap.get exampleDirectory bob.toString = some (SocketId.mk 2) ∧
    typingStart JSString exampleDirectory bob.toString alice.toString =
      [{ target := Target.to (SocketId.mk 2), event := "typing:show",
         payload := Payload.id alice.toString }] ∧
    typingStop JSString exampleDirectory bob.toString alice.toString =
      [{ target := Target.to (SocketId.mk 2), event := "typing:hide",
         payload := Payload.id alice.toString }] :=
  ⟨by decide, (@typing_relay JSString exampleDirectory bob.toString alice.toString).1
    (SocketId.mk 2) (by decide)⟩

/-- C19 (failing input): alice has bob selected and a send of "a" started at clock
reading 5 is still awaiting its answer, so its provisional entry `temp_5` is in
the visible list. A second send, of "b", starts at the same reading of
`Date.now()` and gets the same temporary identifier; its persist request succeeds
with the record `savedSecond`. The confirmation step replaces both provisional
entries: the temporary identifier is gone, but the list holds two entries with
the durable identifier and the pending entry of "a" is lost. -/
theorem handleSendMessage_duplicates_saved :
    (pendingChat.selectedUser = some bobUser ∧
      pendingChat.messages = [tempMessage aliceUser bobUser 5 5 [97]] ∧
      pendingChat.messages.map (fun m => (m._id, m.content)) = [(tempIdOf 5, [97])] ∧
      (tempMessage aliceUser bobUser 5 5 [98])._id = tempIdOf 5) ∧
    (handleSendMessage pendingChat 5 5 [98] (some savedSecond)).1.messages
      = [savedSecond, savedSecond] ∧
    (handleSendMessage pendingChat 5 5 [98] (some savedSecond)).1.messages.countP
      (fun m => decide (m._id = tempIdOf 5)) = 0 ∧
    (handleSendMessage pendingChat 5 5 [98] (some savedSecond)).1.messages.countP
      (fun m => decide (m._id = savedSecond._id)) = 2 ∧
    (handleSendMessage pendingChat 5 5 [98] (some savedSecond)).1.messages.countP
      (fun m => decide (m.content = [97])) = 0 := by
  decide

/-- C20: when the persist request of `handleSendMessage` fails, the provisional
entry is removed: the visible list after the failure holds no entry with the
temporary identifier and is otherwise the list as it was before the send (the
same entries in the same order, hence the same list when none of them had the
temporary identifier), and the persist request was issued exactly once. -/
theorem handleSendMessage_failed (st : ChatState) (now createdNow : Nat)
    (content : JSString) (selectedUser : ClientUser)
    (hsel : st.selectedUser = some selectedUser) (hcontent : trim content ≠ []) :
    (∀ m ∈ (handleSendMessage st now createdNow content none).1.messages,
      m._id ≠ tempIdOf now) ∧
    (handleSendMessage st now createdNow content none).1.messages
      = st.messages.filter (fun m => !decide (m._id = tempIdOf now)) ∧
    ((∀ m ∈ st.messages, m._id ≠ tempIdOf now) →
      (handleSendMessage st now createdNow content none).1 = st) ∧
    (handleSendMessage st now createdNow content none).2.countP
      ClientEffect.isPersistRequest = 1 ∧
    (handleSendMessage st now createdNow content none).2 =
      [ClientEffect.apiSendMessage selectedUser._id (trim content),
        ClientEffect.toastError "Failed to send message"] := by
  have hres : handleSendMessage st now createdNow content none =
      ({ st with messages := st.messages.filter (fun m => !decide (m._id = tempIdOf now)) },
        [ClientEffect.apiSendMessage selectedUser._id (trim content),
          ClientEffect.toastError "Failed to send message"]) := by
    unfold handleSendMessage
    simp only [hsel, hcontent, if_false, List.filter_append]
    simp [tempMessage]
  rw [hres]
  refine ⟨?_, rfl, ?_, rfl, rfl⟩
  · intro m hm
    have := (List.mem_filter.mp hm).2
    simpa using this
  · intro hfresh
    have hfilter : st.messages.filter (fun m => !decide (m._id = tempIdOf now)) = st.messages := by
      rw [List.filter_eq_self]
      intro m hm
      simpa using hfresh m hm
    simp only [hfilter]

theorem handleSendMessage_failed_witness :
    (pendingChat.selectedUser = some bobUser ∧ trim [98] ≠ []) ∧
    (handleSendMessage pendingChat 7 7 [98] none).1 = pendingChat ∧
    (handleSendMessage pendingChat 7 7 [98] none).2.countP ClientEffect.isPersistRequest = 1 :=
  ⟨⟨by decide, by decide⟩,
    (handleSendMessage_failed pendingChat 7 7 [98] bobUser (by decide) (by decide)).2.2.1
      (by decide),
    (handleSendMessage_failed pendingChat 7 7 [98] bobUser (by decide) (by decide)).2.2.2.1⟩

/-- C21: duplicate suppression on receive: for every visible message list that
already holds an entry with identifier `d`, handling an incoming
`message:receive` whose message has identifier `d` leaves the visible list as it
is, so the number of entries with `d` does not grow. -/
theorem onMessageReceive_duplicate (st : ChatState) (message : ClientMessage)
    (h : ∃ m ∈ st.messages, m._id = message._id) :
    (onMessageReceive st message).messages = st.messages ∧
    (onMessageReceive st message).messages.countP (fun m => decide (m._id = message._id)) =
      st.messages.countP (fun m => decide (m._id = message._id)) := by
  have hmsgs : (onMessageReceive st message).messages = st.messages := by
    obtain ⟨m, hm, hid⟩ := h
    unfold onMessageReceive
    cases hf : st.messages.find? (fun m => decide (m._id = message._id)) with
    | some x => simp [hf]
    | none =>
      rw [List.find?_eq_none] at hf
      have := hf m hm
      simp [hid] at this
  rw [hmsgs]
  exact ⟨rfl, rfl⟩

theorem onMessageReceive_duplicate_witness :
    (∃ m ∈ openChat.messages, m._id = savedExample._id) ∧
    (onMessageReceive openChat savedExample).messages = openChat.messages ∧
    (onMessageReceive openChat savedExample).messages.countP
        (fun m => decide (m._id = savedExample._id)) =
      openChat.messages.countP (fun m => decide (m._id = savedExample._id)) :=
  ⟨by decide, onMessageReceive_duplicate openChat savedExample (by decide)⟩

/-- C22 (counterexample): the visible list holds a record created at 9; a relayed
record created at 5, not yet in the list, is appended behind it, so the list is
no longer in ascending order of creation time. -/
theorem onMessageReceive_not_sorted :
    List.Sorted (fun a b : ClientMessage => a.createdAt ≤ b.createdAt) openChat.messages ∧
    (∀ m ∈ openChat.messages, m._id ≠ earlierMessage._id) ∧
    (onMessageReceive openChat earlierMessage).messages = [savedExample, earlierMessage] ∧
    ¬ List.Sorted (fun a b : ClientMessage => a.createdAt ≤ b.createdAt)
      (onMessageReceive openChat earlierMessage).messages := by
  decide

/-- C22 (amended): on receiving a relayed message whose identifier is not yet in
the visible list, the client appends it and does not re-sort: the resulting list
is the previous list followed by the new message, and it is in ascending order of
creation time exactly when the previous list was and no previous entry was
created later than the new message. -/
theorem onMessageReceive_appends (st : ChatState) (message : ClientMessage)
    (hnew : ∀ m ∈ st.messages, m._id ≠ message._id) :
    (onMessageReceive st message).messages = st.messages ++ [message] ∧
    (List.Sorted (fun a b : ClientMessage => a.createdAt ≤ b.createdAt)
        (onMessageReceive st message).messages ↔
      List.Sorted (fun a b : ClientMessage => a.createdAt ≤ b.createdAt) st.messages ∧
        ∀ m ∈ st.messages, m.createdAt ≤ message.createdAt) := by
  have hmsgs : (onMessageReceive st message).messages = st.messages ++ [message] := by
    have hf : st.messages.find? (fun m => decide (m._id = message._id)) = none := by
      rw [List.find?_eq_none]
      intro m hm
      simpa using hnew m hm
    unfold onMessageReceive
    simp [hf]
  rw [hmsgs]
  refine ⟨rfl, ?_⟩
  unfold List.Sorted
  rw [List.pairwise_append]
  simp

theorem onMessageReceive_appends_witness :
    (∀ m ∈ openChat.messages, m._id ≠ laterMessage._id) ∧
    (onMessageReceive openChat laterMessage).messages = openChat.messages ++ [laterMessage] ∧
    List.Sorted (fun a b : ClientMessage => a.createdAt ≤ b.createdAt)
      (onMessageReceive openChat laterMessage).messages :=
  ⟨by decide, (onMessageReceive_appends openChat laterMessage (by decide)).1,
    ((onMessageReceive_appends openChat laterMessage (by decide)).2).mpr
      ⟨by decide, by decide⟩⟩

/-- C23 (counterexample): a burst of three keystrokes, 1000 and 1500 ms apart,
followed by more than 2000 ms without input, typed while the socket is not
connected: `emit` sends nothing, so no `typing:start` and no `typing:stop` is
emitted. -/
theorem typing_offline_emits_nothing :
    offlineTyping.chat.selectedUser = some bobUser ∧
    List.Chain (fun a b => a ≤ b ∧ b < a + 2000) 0 [1000, 2500] ∧
    typingRun offlineTyping [0, 1000, 2500] 5000 = [] :=
  ⟨by decide, (List.Chain.cons ⟨by decide, by decide⟩ (List.Chain.cons ⟨by decide, by decide⟩ List.Chain.nil)),
    by decide⟩

/-- C23 (amended): typing debounce in `handleTyping`, with a counterpart selected
and the socket connected (and any timeout armed by earlier input not yet due at
the first keystroke): for every burst of one or more keystrokes in which
consecutive keystrokes are less than 2000 ms apart, followed by more than 2000 ms
without input, the client emits one `typing:start` per keystroke, at the instant
of the keystroke, and then exactly one `typing:stop`, 2000 ms after the last
keystroke. -/
theorem typing_debounce (s : TypingSession) (selectedUser : ClientUser) (t : Nat)
    (keystrokes : List Nat) (horizon : Nat)
    (hsel : s.chat.selectedUser = some selectedUser) (hconn : s.chat.connected = true)
    (hpending : ∀ timer, s.typingTimeout = some timer → t < timer.due)
    (hburst : List.Chain (fun a b => a ≤ b ∧ b < a + 2000) t keystrokes)
    (hquiet : (t :: keystrokes).getLast (List.cons_ne_nil _ _) + 2000 < horizon) :
    typingRun s (t :: keystrokes) horizon =
      (t :: keystrokes).map (fun k =>
        (k, TypingEffect.emitTypingStart selectedUser._id s.chat.user._id)) ++
      [((t :: keystrokes).getLast (List.cons_ne_nil _ _) + 2000,
        TypingEffect.emitTypingStop selectedUser._id s.chat.user._id)] :=
  typingRun_burst selectedUser horizon keystrokes t s hsel hconn hpending hburst
    (Nat.le_of_lt hquiet)

theorem typing_debounce_witness :
    (exampleTyping.chat.selectedUser = some bobUser ∧ exampleTyping.chat.connected = true ∧
      exampleTyping.typingTimeout = none ∧
      List.Chain (fun a b => a ≤ b ∧ b < a + 2000) 0 [1000, 2500]) ∧
    typingRun exampleTyping [0, 1000, 2500] 5000 =
      [(0, TypingEffect.emitTypingStart bobUser._id aliceUser._id),
       (1000, TypingEffect.emitTypingStart bobUser._id aliceUser._id),
       (2500, TypingEffect.emitTypingStart bobUser._id aliceUser._id),
       (4500, TypingEffect.emitTypingStop bobUser._id aliceUser._id)] :=
  ⟨⟨by decide, by decide, by decide,
      (List.Chain.cons ⟨by decide, by decide⟩ (List.Chain.cons ⟨by decide, by decide⟩ List.Chain.nil))⟩,
    typing_debounce exampleTyping bobUser 0 [1000, 2500] 5000 (by decide) (by decide)
      (by decide)
      (List.Chain.cons ⟨by decide, by decide⟩ (List.Chain.cons ⟨by decide, by decide⟩ List.Chain.nil))
      (by decide)⟩

/-- C24: in `handleSendMessage` the relay request is emitted at most once per
send; when it is emitted, the persist request has been issued before it and has
succeeded, the content did not trim to empty, and the relay request is addressed
to the selected counterpart and carries the server-confirmed record; when the
persist request fails or the content trims to empty, no relay request is
emitted. A send of non-blank content to a selected counterpart over a connected
socket whose persist request succeeds does emit it: the requests are the persist
request followed by the relay request to the selected counterpart with the
confirmed record; when the persist request fails they are the persist request
followed by the error toast. -/
theorem relay_after_persist (st : ChatState) (now createdNow : Nat) (content : JSString)
    (persist : Option ClientMessage) :
    (handleSendMessage st now createdNow content persist).2.countP
      ClientEffect.isRelayRequest ≤ 1 ∧
    (∀ r m, ClientEffect.emitMessageSend r m ∈
        (handleSendMessage st now createdNow content persist).2 →
      persist = some m ∧ trim content ≠ [] ∧
      (∃ selectedUser, st.selectedUser = some selectedUser ∧ selectedUser._id = r) ∧
      (handleSendMessage st now createdNow content persist).2 =
        [ClientEffect.apiSendMessage r (trim content), ClientEffect.emitMessageSend r m]) ∧
    ((persist = none ∨ trim content = []) →
      (handleSendMessage st now createdNow content persist).2.countP
        ClientEffect.isRelayRequest = 0) ∧
    (∀ (selectedUser : ClientUser) (savedMessage : ClientMessage),
      st.selectedUser = some selectedUser → trim content ≠ [] → st.connected = true →
      persist = some savedMessage →
      (handleSendMessage st now createdNow content persist).2 =
        [ClientEffect.apiSendMessage selectedUser._id (trim content),
         ClientEffect.emitMessageSend selectedUser._id savedMessage] ∧
      (handleSendMessage st now createdNow content persist).2.countP
        ClientEffect.isRelayRequest = 1) ∧
    (∀ (selectedUser : ClientUser),
      st.selectedUser = some selectedUser → trim content ≠ [] → persist = none →
      (handleSendMessage st now createdNow content persist).2 =
        [ClientEffect.apiSendMessage selectedUser._id (trim content),
         ClientEffect.toastError "Failed to send message"]) := by
  unfold handleSendMessage
  cases hsel : st.selectedUser with
  | none => simp
  | some selectedUser =>
    by_cases hc : trim content = []
    · simp [hc]
    · cases persist with
      | none => simp [hc, ClientEffect.isRelayRequest, List.countP_cons]
      | some savedMessage =>
        cases hconn : st.connected with
        | false => simp [hc, socketSendMessage, hconn, ClientEffect.isRelayRequest, List.countP_cons]
        | true =>
          simp only [hc, if_false, socketSendMessage, hconn, if_true]
          refine ⟨by simp [ClientEffect.isRelayRequest, List.countP_cons], ?_, by simp, ?_,
            by simp⟩
          · intro r m hmem
            simp only [List.mem_cons, List.mem_singleton, List.not_mem_nil, or_false] at hmem
            rcases hmem with h | h
            · cases h
            · injection h with hr hm
              subst hr; subst hm
              exact ⟨rfl, hc, ⟨selectedUser, rfl, rfl⟩, rfl⟩
          · intro sel saved hs _ _ hp
            injection hs with hs
            injection hp with hp
            subst hs; subst hp
            exact ⟨rfl, by simp [ClientEffect.isRelayRequest, List.countP_cons]⟩

theorem relay_after_persist_witness :
    (exampleChat.selectedUser = some bobUser ∧ trim [104, 105] ≠ [] ∧
      exampleChat.connected = true) ∧
    ((handleSendMessage exampleChat 5 5 [104, 105] (some savedExample)).2 =
        [ClientEffect.apiSendMessage bobUser._id (trim [104, 105]),
         ClientEffect.emitMessageSend bobUser._id savedExample] ∧
      (handleSendMessage exampleChat 5 5 [104, 105] (some savedExample)).2.countP
        ClientEffect.isRelayRequest = 1) :=
  ⟨by decide,
    (relay_after_persist exampleChat 5 5 [104, 105] (some savedExample)).2.2.2.1 bobUser
      savedExample (by decide) (by decide) (by decide) rfl⟩

/-- C25: the summaries returned by `getAllConversations` are ordered by the
creation time of their `lastMessage`, most recent first. -/
theorem getAllConversations_sorted (db : Db) (u : ObjectId) :
    List.Pairwise
      (fun a b : Summary => b.lastMessage.doc.createdAt ≤ a.lastMessage.doc.createdAt)
      ((getAllConversations db u).data.getD []) :=
  getAllConversations_recency db u

theorem getAllConversations_sorted_witness :
    ((getAllConversations threeDb alice).data.getD []).map
        (fun s => (s.user._id, s.lastMessage.doc.createdAt)) = [(dave, 8), (bob, 7)] ∧
    List.Pairwise
      (fun a b : Summary => b.lastMessage.doc.createdAt ≤ a.lastMessage.doc.createdAt)
      ((getAllConversations threeDb alice).data.getD []) :=
  ⟨by decide, getAllConversations_sorted threeDb alice⟩

/-- C26 (counterexample): carol has just been opened (no last message) and stands
in front of bob; a message of bob newer than every listed last message arrives,
and `updateConversationWithNewMessage` moves bob's summary to the front, in front
of carol's summary that has no last message. -/
theorem updateConversation_breaks_emptyFirst :
    (EmptyFirst exampleConversations ∧ RecencySorted exampleConversations ∧
      DistinctCounterparts exampleConversations) ∧
    (∀ c ∈ exampleConversations, ∀ m, c.lastMessage = some m →
      m.createdAt < laterMessage.createdAt) ∧
    (updateConversationWithNewMessage alice.toString laterMessage exampleConversations).map
      (fun c => (c.user._id, c.lastMessage.map (fun m => m.createdAt))) =
        [(bob.toString, some 12), (carol.toString, none)] ∧
    ¬ EmptyFirst
      (updateConversationWithNewMessage alice.toString laterMessage exampleConversations) := by
  refine ⟨by decide, ?_, by decide, by decide⟩
  intro c hc m hm
  simp only [exampleConversations, List.mem_cons, List.mem_singleton, List.not_mem_nil,
    or_false] at hc
  rcases hc with rfl | rfl
  · cases hm
  · injection hm with hm
    subst hm
    decide

/-- C26 (amended): what the client conversation list keeps under the operations
that change it. Loading the summaries `getAllConversations` returned gives a list
in which the summaries with no last message come before all others, the
summaries with a last message are in descending order of its creation time, and
no counterpart appears twice. `handleUserFromUrl`, when no listed summary has the
requested identifier and a profile is fetched, puts a summary of that profile
with no last message at the front; in every case it keeps the first two
properties, and it keeps the third when the fetched profile carries the
requested identifier as its `_id`. `updateConversationWithNewMessage` leaves the
list as it is when the counterpart of the message is not listed; otherwise it
moves the first summary of that counterpart, with the message as its last
message, to the front and keeps the other summaries in their order; it keeps
that no counterpart appears twice and, for a message at least as new as every
listed last message, the descending order of the creation times. -/
theorem conversations_invariant (st : ChatState) :
    (∀ (db : Db) (u : ObjectId),
      EmptyFirst (fetchConversations st
        (some (((getAllConversations db u).data.getD []).map Summary.toClient))).conversations ∧
      RecencySorted (fetchConversations st
        (some (((getAllConversations db u).data.getD []).map Summary.toClient))).conversations ∧
      DistinctCounterparts (fetchConversations st
        (some (((getAllConversations db u).data.getD []).map Summary.toClient))).conversations) ∧
    (∀ (targetUserId : JSString) (profile : Option ClientUser)
        (loaded : Option (List ClientMessage)) (marked : Bool),
      ((∀ c ∈ st.conversations, c.user._id ≠ targetUserId) →
        ∀ userData, profile = some userData →
          (handleUserFromUrl st targetUserId profile loaded marked).conversations =
            { user := userData, lastMessage := none, unreadCount := 0 } :: st.conversations) ∧
      (EmptyFirst st.conversations →
        EmptyFirst (handleUserFromUrl st targetUserId profile loaded marked).conversations) ∧
      (RecencySorted st.conversations →
        RecencySorted (handleUserFromUrl st targetUserId profile loaded marked).conversations) ∧
      ((∀ userData, profile = some userData → userData._id = targetUserId) →
        DistinctCounterparts st.conversations →
        DistinctCounterparts
          (handleUserFromUrl st targetUserId profile loaded marked).conversations)) ∧
    (∀ (userId : JSString) (message : ClientMessage),
      ((∀ c ∈ st.conversations, some c.user._id ≠ otherUserIdOf userId message) →
        updateConversationWithNewMessage userId message st.conversations = st.conversations) ∧
      (∀ (A : List Conversation) (conv : Conversation) (B : List Conversation),
        st.conversations = A ++ conv :: B →
        (∀ c ∈ A, some c.user._id ≠ otherUserIdOf userId message) →
        some conv.user._id = otherUserIdOf userId message →
        updateConversationWithNewMessage userId message st.conversations =
          { conv with lastMessage := some message } :: (A ++ B)) ∧
      ((∀ c ∈ st.conversations, ∀ m, c.lastMessage = some m →
          m.createdAt ≤ message.createdAt) →
        RecencySorted st.conversations →
        RecencySorted (updateConversationWithNewMessage userId message st.conversations)) ∧
      (DistinctCounterparts st.conversations →
        DistinctCounterparts
          (updateConversationWithNewMessage userId message st.conversations))) := by
  refine ⟨?_, ?_, ?_⟩
  · intro db u
    show EmptyFirst (((getAllConversations db u).data.getD []).map Summary.toClient) ∧
      RecencySorted (((getAllConversations db u).data.getD []).map Summary.toClient) ∧
      DistinctCounterparts (((getAllConversations db u).data.getD []).map Summary.toClient)
    refine ⟨?_, ?_, ?_⟩
    · unfold EmptyFirst
      rw [List.pairwise_map]
      apply List.pairwise_of_forall
      intro a b hb
      simp [Summary.toClient] at hb
    · unfold RecencySorted
      have hfm : (((getAllConversations db u).data.getD []).map Summary.toClient).filterMap
          (fun c => c.lastMessage) =
          ((getAllConversations db u).data.getD []).map (fun s => s.lastMessage.toClient) := by
        rw [List.filterMap_map]
        have : ((fun c : Conversation => c.lastMessage) ∘ Summary.toClient) =
            (fun s : Summary => some s.lastMessage.toClient) := rfl
        rw [this]
        show List.filterMap (some ∘ fun s : Summary => s.lastMessage.toClient) _ = _
        rw [List.filterMap_eq_map]
      rw [hfm, List.pairwise_map]
      exact getAllConversations_recency db u
    · unfold DistinctCounterparts
      rw [List.map_map]
      exact getAllConversations_nodup db u
  · intro targetUserId profile loaded marked
    cases hfind : st.conversations.find? (fun conv => decide (conv.user._id = targetUserId)) with
    | some existingConv =>
      have hres : (handleUserFromUrl st targetUserId profile loaded marked).conversations =
          (handleSelectUser st existingConv.user loaded marked).conversations := by
        unfold handleUserFromUrl
        rw [hfind]
      have hkeep := emptyFirst_of_map _ _
        (handleSelectUser_conversations st existingConv.user loaded marked)
      rw [hres]
      refine ⟨?_, hkeep.1, hkeep.2.1, fun _ => hkeep.2.2⟩
      intro hnot
      have hmem := List.mem_of_find?_eq_some hfind
      have hid := List.find?_some hfind
      exact absurd (by simpa using hid) (hnot existingConv hmem)
    | none =>
      have hnot : ∀ c ∈ st.conversations, c.user._id ≠ targetUserId := by
        rw [List.find?_eq_none] at hfind
        intro c hc
        simpa using hfind c hc
      cases profile with
      | none =>
        have hres : (handleUserFromUrl st targetUserId none loaded marked).conversations =
            st.conversations := by
          unfold handleUserFromUrl
          rw [hfind]
        rw [hres]
        exact ⟨fun _ userData h => Option.noConfusion h, fun h => h, fun h => h, fun _ h => h⟩
      | some userData =>
        have hres : (handleUserFromUrl st targetUserId (some userData) loaded
            marked).conversations =
            { user := userData, lastMessage := none, unreadCount := 0 } :: st.conversations := by
          unfold handleUserFromUrl
          rw [hfind]
        rw [hres]
        refine ⟨?_, ?_, ?_, ?_⟩
        · intro _ userData1 h
          injection h with h
          rw [h]
        · intro h
          unfold EmptyFirst at h ⊢
          rw [List.pairwise_cons]
          exact ⟨fun _ _ _ => rfl, h⟩
        · intro h
          unfold RecencySorted at h ⊢
          rw [List.filterMap_cons_none (by rfl)]
          exact h
        · intro hsame h
          unfold DistinctCounterparts at h ⊢
          rw [List.map_cons, List.nodup_cons]
          refine ⟨?_, h⟩
          intro hmem
          obtain ⟨c, hc, hid⟩ := List.mem_map.mp hmem
          exact hnot c hc (hid.trans (hsame userData rfl))
  · intro userId message
    refine ⟨updateConversation_absent userId message st.conversations, ?_,
      updateConversation_recencySorted userId message st.conversations,
      updateConversation_distinct userId message st.conversations⟩
    intro A conv B hsplit hA hconv
    rw [hsplit]
    exact updateConversation_found userId message A B conv hA hconv

theorem conversations_invariant_witness :
    (EmptyFirst listedChat.conversations ∧ RecencySorted listedChat.conversations ∧
      DistinctCounterparts listedChat.conversations ∧
      listedChat.conversations.map (fun c => (c.user._id, c.lastMessage.map (fun m => m.createdAt)))
        = [(carol.toString, none), (bob.toString, some 9), (dave.toString, some 5)]) ∧
    ((handleUserFromUrl listedChat erinUser._id (some erinUser) none false).conversations =
        { user := erinUser, lastMessage := none, unreadCount := 0 } :: listedChat.conversations ∧
      EmptyFirst
        (handleUserFromUrl listedChat erinUser._id (some erinUser) none false).conversations ∧
      RecencySorted
        (handleUserFromUrl listedChat erinUser._id (some erinUser) none false).conversations ∧
      DistinctCounterparts
        (handleUserFromUrl listedChat erinUser._id (some erinUser) none false).conversations) ∧
    (otherUserIdOf alice.toString laterMessage = some bob.toString ∧
      updateConversationWithNewMessage alice.toString laterMessage listedChat.conversations =
        [{ user := bobUser, lastMessage := some laterMessage, unreadCount := 0 },
         { user := carolUser, lastMessage := none, unreadCount := 0 },
         { user := daveUser, lastMessage := some daveMessage, unreadCount := 1 }] ∧
      RecencySorted
        (updateConversationWithNewMessage alice.toString laterMessage listedChat.conversations) ∧
      DistinctCounterparts
        (updateConversationWithNewMessage alice.toString laterMessage
          listedChat.conversations)) ∧
    (otherUserIdOf alice.toString carolMessage = some carol.toString ∧
      (∀ c ∈ exampleChat.conversations,
        some c.user._id ≠ otherUserIdOf alice.toString carolMessage) ∧
      updateConversationWithNewMessage alice.toString carolMessage exampleChat.conversations =
        exampleChat.conversations) :=
  ⟨by decide,
    ⟨((conversations_invariant listedChat).2.1 erinUser._id (some erinUser) none false).1
        (by decide) erinUser rfl,
      ((conversations_invariant listedChat).2.1 erinUser._id (some erinUser) none false).2.1
        (by decide),
      ((conversations_invariant listedChat).2.1 erinUser._id (some erinUser) none false).2.2.1
        (by decide),
      ((conversations_invariant listedChat).2.1 erinUser._id (some erinUser) none false).2.2.2
        (fun userData h => by injection h with h; rw [← h]) (by decide)⟩,
    ⟨by decide,
      ((conversations_invariant listedChat).2.2 alice.toString laterMessage).2.1
        [{ user := carolUser, lastMessage := none, unreadCount := 0 }]
        { user := bobUser, lastMessage := some savedExample, unreadCount := 0 }
        [{ user := daveUser, lastMessage := some daveMessage, unreadCount := 1 }]
        rfl (by decide) (by decide),
      ((conversations_invariant listedChat).2.2 alice.toString laterMessage).2.2.1
        (by decide) (by decide),
      ((conversations_invariant listedChat).2.2 alice.toString laterMessage).2.2.2
        (by decide)⟩,
    by decide, by decide,
    ((conversations_invariant exampleChat).2.2 alice.toString carolMessage).1 (by decide)⟩

/-- C27: `getConversationId` is injective on unordered pairs of dash-free
identities: for all strings `a`, `b`, `c`, `d` without the character `-`,
`getConversationId a b = getConversationId c d` implies `{a, b} = {c, d}`. -/
theorem getConversationId_injective (a b c d : JSString)
    (ha : dash ∉ a) (hb : dash ∉ b) (hc : dash ∉ c) (hd : dash ∉ d)
    (h : getConversationId a b = getConversationId c d) :
    (a = c ∧ b = d) ∨ (a = d ∧ b = c) := by
  rcases getConversationId_cases a b with h1 | h1 <;>
    rcases getConversationId_cases c d with h2 | h2 <;>
    rw [h1, h2] at h
  · exact Or.inl (append_sep_inj_left dash a c b d ha hc h)
  · have := append_sep_inj_left dash a d b c ha hd h
    exact Or.inr this
  · have := append_sep_inj_left dash b c a d hb hc h
    exact Or.inr ⟨this.2, this.1⟩
  · have := append_sep_inj_left dash b d a c hb hd h
    exact Or.inl ⟨this.2, this.1⟩

theorem getConversationId_injective_witness :
    (dash ∉ alice.toString ∧ dash ∉ bob.toString ∧
      getConversationId alice.toString bob.toString =
        getConversationId bob.toString alice.toString) ∧
    ((alice.toString = bob.toString ∧ bob.toString = alice.toString) ∨
      (alice.toString = alice.toString ∧ bob.toString = bob.toString)) :=
  ⟨⟨by decide, by decide, by decide⟩,
    getConversationId_injective alice.toString bob.toString bob.toString alice.toString
      (by decide) (by decide) (by decide) (by decide) (by decide)⟩

/-- C28: conversation isolation: in a database where the `conversationId` of every
message is `getConversationId sender receiver` and the identities of the senders,
the receivers and the authenticated user `u` are dash-free, for every path
parameter `otherUserId` (any string), every message `getConversation` returns has
`u` as its sender or its receiver, and `markMessagesAsRead` leaves every message
whose receiver is not `u` as it is. -/
theorem conversation_isolation (db : Db) (now : Nat) (u : ObjectId) (otherUserId : JSString)
    (hcons : ∀ m ∈ db.messages,
      m.conversationId = getConversationId m.sender.toString m.receiver.toString)
    (hdash : ∀ m ∈ db.messages, dash ∉ m.sender.toString ∧ dash ∉ m.receiver.toString)
    (hu : dash ∉ u.toString) :
    (∀ pm ∈ (getConversation db u otherUserId).data.getD [],
      pm.doc ∈ db.messages ∧ (pm.doc.sender = u ∨ pm.doc.receiver = u)) ∧
    List.Forall₂ (fun m m1 : Message => m.receiver ≠ u → m1 = m)
      db.messages (markMessagesAsRead db now u otherUserId).2.messages := by
  constructor
  · intro pm hpm
    obtain ⟨msgs, hres, hperm, _, _⟩ := getConversation_result db u otherUserId
    rw [hres] at hpm
    simp only [Option.getD_some] at hpm
    have hmem := hperm.mem_iff.mp hpm
    rw [List.mem_map] at hmem
    obtain ⟨m, hm, hpop⟩ := hmem
    rw [List.mem_filter] at hm
    obtain ⟨hmdb, hcid⟩ := hm
    simp only [decide_eq_true_eq] at hcid
    have hdoc : pm.doc = m := by rw [← hpop]; rfl
    rw [hdoc]
    refine ⟨hmdb, ?_⟩
    rw [hcons m hmdb] at hcid
    obtain ⟨hs, hr⟩ := hdash m hmdb
    rcases getConversationId_cases m.sender.toString m.receiver.toString with h1 | h1 <;>
      rcases getConversationId_cases u.toString otherUserId with h2 | h2 <;>
      rw [h1, h2] at hcid
    · exact Or.inl (toString_inj.mp (append_sep_inj_left dash _ _ _ _ hs hu hcid).1)
    · exact Or.inr (toString_inj.mp (append_sep_inj_right dash _ _ _ _ hr hu hcid).2)
    · exact Or.inr (toString_inj.mp (append_sep_inj_left dash _ _ _ _ hr hu hcid).1)
    · exact Or.inl (toString_inj.mp (append_sep_inj_right dash _ _ _ _ hs hu hcid).2)
  · rw [markMessagesAsRead_messages, List.forall₂_map_right_iff, List.forall₂_same]
    intro m _ hne
    have hno : ¬ (m.conversationId = getConversationId u.toString otherUserId ∧ m.receiver = u ∧
        m.isRead = false) := fun h => hne h.2.1
    rw [if_neg hno]

theorem conversation_isolation_witness :
    ((∀ m ∈ exampleDb3.messages,
        m.conversationId = getConversationId m.sender.toString m.receiver.toString) ∧
      (∀ m ∈ exampleDb3.messages, dash ∉ m.sender.toString ∧ dash ∉ m.receiver.toString) ∧
      dash ∉ alice.toString) ∧
    (∀ pm ∈ (getConversation exampleDb3 alice bob.toString).data.getD [],
      pm.doc ∈ exampleDb3.messages ∧ (pm.doc.sender = alice ∨ pm.doc.receiver = alice)) ∧
    List.Forall₂ (fun m m1 : Message => m.receiver ≠ alice → m1 = m)
      exampleDb3.messages (markMessagesAsRead exampleDb3 20 alice bob.toString).2.messages :=
  ⟨⟨by decide, by decide, by decide⟩,
    conversation_isolation exampleDb3 20 alice bob.toString (by decide) (by decide) (by decide)⟩

/-- C29 (failing input): alice has bob's conversation open and every visible
entry has bob as its sender or receiver; a relayed message of carol to alice
arrives and is appended to the visible list, although bob is neither its sender
nor its receiver. -/
theorem onMessageReceive_third_user :
    openChat.selectedUser = some bobUser ∧
    (∀ m ∈ openChat.messages, m.Involves bobUser._id) ∧
    (onMessageReceive openChat carolMessage).selectedUser = some bobUser ∧
    (onMessageReceive openChat carolMessage).messages = [savedExample, carolMessage] ∧
    ¬ carolMessage.Involves bobUser._id := by
  decide

/-- C30 (failing input): connection 1 announces alice and then bob and is closed;
the disconnect handler removes alice only, so bob still maps to connection 1 and
a later `message:send` addressed to bob is sent to the closed connection. -/
theorem disconnect_leaves_second_identity :
    (handleEvents [] twoJoinsThenClose).1 = [(bob.toString, SocketId.mk 1)] ∧
    JSMap.get (handleEvents [] twoJoinsThenClose).1 bob.toString = some (SocketId.mk 1) ∧
    messageSend (handleEvents [] twoJoinsThenClose).1 bob.toString ([104, 105] : JSString) =
      [{ target := Target.to (SocketId.mk 1), event := "message:receive",
         payload := Payload.message [104, 105] }] := by
  decide

end SkillNexus
